import Mathlib

/-!
Verification of the DevToolDZM synchronization engine (src/main.py, src/app.py).

The local SQLite cache is modelled as lists of rows (one list per table, ordered
by rowid); the remote App Store Connect API and the GitHub contents API are
modelled as oracles.  Every remote call can succeed with data, return no data
(the code paths where a fetch returns None, e.g. JWT generation failure), or
raise an exception (the code paths where `get`/`patch` raise AppleAPIError).
-/

namespace DevToolDZM

set_option maxRecDepth 100000

/-- Row of the `apps` table (app.py init schema: PRIMARY KEY app_id). -/
structure AppRow where
  app_id : String
  store_id : Nat
  name : String
deriving DecidableEq, Repr

/-- Row of `app_info_localizations` (PRIMARY KEY localization_id). -/
structure InfoLocRow where
  localization_id : String
  app_id : String
  store_id : Nat
  locale : Option String
  name : Option String
  subtitle : Option String
  privacy_policy_url : Option String
  privacy_choices_url : Option String
deriving DecidableEq, Repr

/-- Row of `app_versions` (PRIMARY KEY version_id). -/
structure VersionRow where
  version_id : String
  app_id : String
  store_id : Nat
  platform : Option String
deriving DecidableEq, Repr

/-- Row of `app_version_localizations` (PRIMARY KEY localization_id). -/
structure VersionLocRow where
  localization_id : String
  version_id : String
  app_id : String
  store_id : Nat
  locale : Option String
  description : Option String
  keywords : Option String
  marketing_url : Option String
  promotional_text : Option String
  support_url : Option String
  whats_new : Option String
  platform : Option String
deriving DecidableEq, Repr

/-- Row of `app_screenshots` (PRIMARY KEY id). -/
structure ShotRow where
  id : String
  app_id : String
  store_id : Nat
  localization_id : String
  locale : String
  display_type : String
  url : String
  width : Nat
  height : Nat
  platform : String
deriving DecidableEq, Repr

/-- The local relational cache: the five app-scoped tables, each as a list of
rows in rowid order. -/
structure DB where
  apps : List AppRow
  app_info_localizations : List InfoLocRow
  app_versions : List VersionRow
  app_version_localizations : List VersionLocRow
  app_screenshots : List ShotRow
deriving DecidableEq, Repr

/-- SQLite `INSERT OR REPLACE` keyed by a primary key: the conflicting row is
deleted and the new row appended (new rowid). -/
def upsertBy {α : Type} (key : α → String) (r : α) (l : List α) : List α :=
  l.filter (fun x => !(key x == key r)) ++ [r]

/-- SQLite `INSERT OR IGNORE` keyed by a primary key: keep the table unchanged
when the key already exists, otherwise append. -/
def insertIgnoreBy {α : Type} (key : α → String) (r : α) (l : List α) : List α :=
  if l.any (fun x => key x == key r) then l else l ++ [r]

/-- A loop of `INSERT OR REPLACE` statements over a list of rows. -/
def upsertFold {α : Type} (key : α → String) (rows : List α) (l : List α) : List α :=
  rows.foldl (fun t r => upsertBy key r t) l

/-- A loop of `INSERT OR IGNORE` statements over a list of rows. -/
def ignoreFold {α : Type} (key : α → String) (rows : List α) (l : List α) : List α :=
  rows.foldl (fun t r => insertIgnoreBy key r t) l

/-- Result of one remote fetch helper: data, a `None` return (e.g. JWT
generation failed), or a raised AppleAPIError. -/
inductive FR (α : Type) where
  | ok (a : α)
  | noData
  | exn
deriving DecidableEq, Repr

/-- One element of the remote `/apps` listing (`id` plus optional
`attributes.name`). -/
structure AppListing where
  id : String
  name : Option String
deriving DecidableEq, Repr

/-- One raw appInfo resource: `id` and `attributes.appStoreState`. -/
structure AppInfoData where
  id : String
  appStoreState : Option String
deriving DecidableEq, Repr

/-- One appInfoLocalization resource from the remote API. -/
structure InfoLocData where
  id : String
  locale : Option String
  name : Option String
  subtitle : Option String
  privacyPolicyUrl : Option String
  privacyChoicesUrl : Option String
deriving DecidableEq, Repr

/-- One appStoreVersion resource: `id` and optional `attributes.platform`. -/
structure VersionData where
  id : String
  platform : Option String
deriving DecidableEq, Repr

/-- One appStoreVersionLocalization resource from the remote API. -/
structure VersionLocData where
  id : String
  locale : Option String
  description : Option String
  keywords : Option String
  marketingUrl : Option String
  promotionalText : Option String
  supportUrl : Option String
  whatsNew : Option String
deriving DecidableEq, Repr

/-- One appScreenshotSet resource. -/
structure SetData where
  id : String
  screenshotDisplayType : String
deriving DecidableEq, Repr

/-- One appScreenshot resource (url plus imageAsset width/height). -/
structure ShotData where
  id : String
  url : String
  width : Nat
  height : Nat
deriving DecidableEq, Repr

/-- Outcome of a remote PATCH call: 2xx (the helper returns json, truthy), or a
raised AppleAPIError (any non-2xx or network failure raises in `patch`). -/
inductive PatchR where
  | ok
  | exn
deriving DecidableEq, Repr

/-- The remote App Store Connect API, as a fixed oracle.  `jwtOk` models
whether `generate_jwt` succeeds for the store's credentials (signing is
deterministic in the credentials). -/
structure Remote where
  jwtOk : Bool
  listApps : FR (List AppListing)
  appInfos : String → FR (List AppInfoData)
  infoLocs : String → FR (List InfoLocData)
  versions : String → Option String → FR (List VersionData)
  versionLocs : String → FR (List VersionLocData)
  shotSets : String → FR (List SetData)
  shots : String → FR (List ShotData)
  patchInfoLoc : String → List (String × Option String) → PatchR
  patchVersionLoc : String → List (String × Option String) → PatchR

/-- main.py `fetch_all_apps`: JWT failure returns None; otherwise the paginated
listing (collapsed into one response). -/
def fetchAllApps (R : Remote) : FR (List AppListing) :=
  if R.jwtOk then R.listApps else FR.noData

/-- main.py `fetch_app_info`: fetches the raw appInfos and keeps only records
whose `appStoreState` is PREPARE_FOR_SUBMISSION; returns None on JWT failure or
a None response. -/
def fetchAppInfo (R : Remote) (appId : String) : FR (List AppInfoData) :=
  if R.jwtOk then
    match R.appInfos appId with
    | FR.ok l => FR.ok (l.filter (fun d => d.appStoreState == some "PREPARE_FOR_SUBMISSION"))
    | FR.noData => FR.noData
    | FR.exn => FR.exn
  else FR.noData

/-- main.py `fetch_app_info_localizations`. -/
def fetchInfoLocs (R : Remote) (infoId : String) : FR (List InfoLocData) :=
  if R.jwtOk then R.infoLocs infoId else FR.noData

/-- main.py `fetch_app_store_versions` with the fixed
filter[appStoreState]=PREPARE_FOR_SUBMISSION and optional platform filter. -/
def fetchVersions (R : Remote) (appId : String) (platform : Option String) :
    FR (List VersionData) :=
  if R.jwtOk then R.versions appId platform else FR.noData

/-- main.py `fetch_app_store_version_localizations`. -/
def fetchVersionLocs (R : Remote) (versionId : String) : FR (List VersionLocData) :=
  if R.jwtOk then R.versionLocs versionId else FR.noData

/-- `app_info_index = 1 if len(data) > 1 else 0` followed by `.get("id")`. -/
def pickInfoId : List AppInfoData → String
  | [] => ""
  | [x] => x.id
  | _ :: y :: _ => y.id

/-- apps row inserted by `process_app` STEP 2:
`app.get("attributes", {}).get("name", "Unknown")`. -/
def mkAppRow (s : Nat) (a : AppListing) : AppRow :=
  ⟨a.id, s, a.name.getD "Unknown"⟩

/-- app_info_localizations row inserted from one remote localization. -/
def mkInfoLocRow (appId : String) (s : Nat) (l : InfoLocData) : InfoLocRow :=
  ⟨l.id, appId, s, l.locale, l.name, l.subtitle, l.privacyPolicyUrl, l.privacyChoicesUrl⟩

/-- app_versions row inserted by `process_app` STEP 4
(`attributes.get("platform", "UNKNOWN")`). -/
def mkVersionRowP (appId : String) (s : Nat) (v : VersionData) : VersionRow :=
  ⟨v.id, appId, s, some (v.platform.getD "UNKNOWN")⟩

/-- app_versions row inserted by `sync_attribute_data`
(`attributes.get("platform")`, no default). -/
def mkVersionRowS (appId : String) (s : Nat) (v : VersionData) : VersionRow :=
  ⟨v.id, appId, s, v.platform⟩

/-- app_version_localizations row inserted by `process_app` STEP 4. -/
def mkVLocRowP (appId : String) (s : Nat) (versionId : String) (plat : String)
    (l : VersionLocData) : VersionLocRow :=
  ⟨l.id, versionId, appId, s, l.locale, l.description, l.keywords, l.marketingUrl,
    l.promotionalText, l.supportUrl, l.whatsNew, some plat⟩

/-- app_version_localizations row inserted by `sync_attribute_data`. -/
def mkVLocRowS (appId : String) (s : Nat) (versionId : String) (plat : Option String)
    (l : VersionLocData) : VersionLocRow :=
  ⟨l.id, versionId, appId, s, l.locale, l.description, l.keywords, l.marketingUrl,
    l.promotionalText, l.supportUrl, l.whatsNew, plat⟩

/-- app_screenshots row built in `fetch_screenshots.process_localization`. -/
def mkShotRow (appId : String) (s : Nat) (locId : String) (locale : String)
    (disp : String) (plat : String) (sh : ShotData) : ShotRow :=
  ⟨sh.id, appId, s, locId, locale, disp, sh.url, sh.width, sh.height, plat⟩

/-- Outcome of the collection phase of `fetch_screenshots`: `noWrite` covers
the early returns before any cache write (JWT failure, or a None/absent
versions response); `exn` is a raised AppleAPIError from a main-thread fetch;
`collected` is the `all_screenshots` list. -/
inductive ScreenFetch where
  | noWrite
  | exn
  | collected (shots : List ShotRow)
deriving DecidableEq, Repr

/-- Inner loop of `process_localization` over the screenshot sets of one
localization.  `none` models an exception inside the worker thread (caught at
`future.result`, dropping the whole localization's shots). -/
def collectSets (R : Remote) (appId : String) (s : Nat) (locId : String)
    (locale : String) (plat : String) : List SetData → Option (List ShotRow)
  | [] => some []
  | st :: rest =>
    match R.shots st.id with
    | FR.exn => none
    | FR.noData => collectSets R appId s locId locale plat rest
    | FR.ok shl =>
      (collectSets R appId s locId locale plat rest).map
        (fun more => shl.map (mkShotRow appId s locId locale st.screenshotDisplayType plat) ++ more)

/-- `fetch_screenshots.process_localization` for one localization: `none`
models a thread exception (missing locale attribute, or a raised GET on the
screenshot-set or screenshot listing), whose shots are dropped by the caller's
per-future try/except. -/
def collectLocaleShots (R : Remote) (appId : String) (s : Nat)
    (loc : VersionLocData) (plat : String) : Option (List ShotRow) :=
  match loc.locale with
  | none => none
  | some locale =>
    match R.shotSets loc.id with
    | FR.exn => none
    | FR.noData => some []
    | FR.ok sets => collectSets R appId s loc.id locale plat sets

/-- `if platform and platform_name != platform: continue` in `fetch_screenshots`. -/
def skipVersion (platform : Option String) (plat : String) : Bool :=
  match platform with
  | some p => !(plat == p)
  | none => false

/-- Loop of `fetch_screenshots` over the PREPARE_FOR_SUBMISSION versions:
fetch each version's localizations on the main thread (a raised fetch aborts
the whole function — `none`), fan out per-localization collection, and
concatenate results in submission order.  Thread failures drop only their own
localization's shots. -/
def collectVersions (R : Remote) (appId : String) (s : Nat)
    (platform : Option String) : List VersionData → Option (List ShotRow)
  | [] => some []
  | v :: vs =>
    let plat := v.platform.getD "UNKNOWN"
    if skipVersion platform plat then
      collectVersions R appId s platform vs
    else
      match fetchVersionLocs R v.id with
      | FR.exn => none
      | FR.noData => collectVersions R appId s platform vs
      | FR.ok ll =>
        let locShots := ll.foldr
          (fun loc acc => (collectLocaleShots R appId s loc plat).getD [] ++ acc) []
        (collectVersions R appId s platform vs).map (fun more => locShots ++ more)

/-- Collection phase of main.py `fetch_screenshots` (everything before the
cache write). -/
def collectAllShots (R : Remote) (appId : String) (s : Nat)
    (platform : Option String) : ScreenFetch :=
  if R.jwtOk then
    match fetchVersions R appId platform with
    | FR.exn => ScreenFetch.exn
    | FR.noData => ScreenFetch.noWrite
    | FR.ok vl =>
      match collectVersions R appId s platform vl with
      | none => ScreenFetch.exn
      | some shots => ScreenFetch.collected shots
  else ScreenFetch.noWrite

/-- Cache-write phase of `fetch_screenshots`: delete the (app, store[, platform])
scope, then `INSERT OR IGNORE` every collected shot. -/
def writeShots (appId : String) (s : Nat) (platform : Option String)
    (shots : List ShotRow) (db : DB) : DB :=
  let keep : ShotRow → Bool := fun r =>
    match platform with
    | some p => !(r.app_id == appId && r.store_id == s && r.platform == p)
    | none => !(r.app_id == appId && r.store_id == s)
  { db with app_screenshots := ignoreFold ShotRow.id shots (db.app_screenshots.filter keep) }

/-- main.py `fetch_screenshots` as a cache operation.  The Bool is false when
the function raised (in which case no cache write took place, since collection
precedes the write). -/
def fetchScreenshotsDb (R : Remote) (appId : String) (s : Nat)
    (platform : Option String) (db : DB) : DB × Bool :=
  match collectAllShots R appId s platform with
  | ScreenFetch.exn => (db, false)
  | ScreenFetch.noWrite => (db, true)
  | ScreenFetch.collected shots => (writeShots appId s platform shots db, true)

/-- Sequencing of `process_app` steps: stop at the first step that raised. -/
def andThen (x : DB × Bool) (f : DB → DB × Bool) : DB × Bool :=
  if x.2 then f x.1 else x

/-- `process_app` STEP 1: delete all cached rows of the four app-scoped data
tables for this (app, store). -/
def deleteAppScopeData (appId : String) (s : Nat) (db : DB) : DB :=
  { db with
    app_screenshots := db.app_screenshots.filter
      (fun r => !(r.app_id == appId && r.store_id == s)),
    app_version_localizations := db.app_version_localizations.filter
      (fun r => !(r.app_id == appId && r.store_id == s)),
    app_versions := db.app_versions.filter
      (fun r => !(r.app_id == appId && r.store_id == s)),
    app_info_localizations := db.app_info_localizations.filter
      (fun r => !(r.app_id == appId && r.store_id == s)) }

/-- `process_app` STEP 3: fetch the PREPARE_FOR_SUBMISSION app info, pick the
record (index 1 when more than one), fetch its localizations and insert them.
The Bool is false when a fetch raised. -/
def step3Info (R : Remote) (s : Nat) (appId : String) (db : DB) : DB × Bool :=
  match fetchAppInfo R appId with
  | FR.exn => (db, false)
  | FR.noData => (db, true)
  | FR.ok l =>
    if l.isEmpty then (db, true)
    else
      match fetchInfoLocs R (pickInfoId l) with
      | FR.exn => (db, false)
      | FR.noData => (db, true)
      | FR.ok ll =>
        ({ db with app_info_localizations :=
            (upsertFold InfoLocRow.localization_id (ll.map (mkInfoLocRow appId s))
              db.app_info_localizations) }, true)

/-- `process_app` STEP 4 inner loop: per version, upsert the version row (its
own committed transaction), then fetch that version's localizations (a raised
fetch propagates, keeping the already-committed version row) and upsert them. -/
def processVersionsP (R : Remote) (s : Nat) (appId : String) :
    List VersionData → DB → DB × Bool
  | [], db => (db, true)
  | v :: vs, db =>
    let db1 := { db with app_versions :=
      (upsertBy VersionRow.version_id (mkVersionRowP appId s v) db.app_versions) }
    match fetchVersionLocs R v.id with
    | FR.exn => (db1, false)
    | FR.noData => processVersionsP R s appId vs db1
    | FR.ok ll =>
      processVersionsP R s appId vs
        { db1 with app_version_localizations :=
          (upsertFold VersionLocRow.localization_id
            (ll.map (mkVLocRowP appId s v.id (v.platform.getD "UNKNOWN")))
            db1.app_version_localizations) }

/-- `process_app` STEP 4: fetch the PREPARE_FOR_SUBMISSION versions (no
platform filter) and run the per-version loop. -/
def step4Versions (R : Remote) (s : Nat) (appId : String) (db : DB) : DB × Bool :=
  match fetchVersions R appId none with
  | FR.exn => (db, false)
  | FR.noData => (db, true)
  | FR.ok vl => processVersionsP R s appId vl db

/-- main.py `process_app`: delete the app's old data, upsert the apps row, then
re-fetch and insert app info localizations, versions with their localizations,
and screenshots.  The Bool is true when no exception was raised (the tuple
`(app_id, True)` return). -/
def processApp (R : Remote) (s : Nat) (a : AppListing) (db : DB) : DB × Bool :=
  let db1 := deleteAppScopeData a.id s db
  let db2 := { db1 with apps := upsertBy AppRow.app_id (mkAppRow s a) db1.apps }
  andThen (step3Info R s a.id db2) (fun d =>
    andThen (step4Versions R s a.id d) (fun d2 =>
      fetchScreenshotsDb R a.id s none d2))

/-- Loop of `fetch_and_store_apps` over the listed apps: each app is processed
inside try/except, so one failing app does not abort the rest; successes are
counted. -/
def processAppsFold (R : Remote) (s : Nat) :
    List AppListing → DB × Nat → DB × Nat
  | [], st => st
  | a :: rest, (db, n) =>
    let r := processApp R s a db
    processAppsFold R s rest (r.1, if r.2 then n + 1 else n)

/-- `fetch_and_store_apps` CLEANUP: for each app-scoped table delete every row
of this store whose app_id is not among the listed ids. -/
def cleanupStore (s : Nat) (ids : List String) (db : DB) : DB :=
  { apps := db.apps.filter
      (fun r => !(r.store_id == s && !(ids.contains r.app_id))),
    app_info_localizations := db.app_info_localizations.filter
      (fun r => !(r.store_id == s && !(ids.contains r.app_id))),
    app_versions := db.app_versions.filter
      (fun r => !(r.store_id == s && !(ids.contains r.app_id))),
    app_version_localizations := db.app_version_localizations.filter
      (fun r => !(r.store_id == s && !(ids.contains r.app_id))),
    app_screenshots := db.app_screenshots.filter
      (fun r => !(r.store_id == s && !(ids.contains r.app_id))) }

/-- main.py `fetch_and_store_apps`: list the store's apps (an empty or failed
listing returns False with no cache change; a raised listing propagates,
modelled as `none`), process each app, then run the cleanup once with the
complete id set, and return whether at least one app succeeded. -/
def fetchAndStoreApps (R : Remote) (s : Nat) (db : DB) : DB × Option Bool :=
  match fetchAllApps R with
  | FR.exn => (db, none)
  | FR.noData => (db, some false)
  | FR.ok apps =>
    if apps.isEmpty then (db, some false)
    else
      let st := processAppsFold R s apps (db, 0)
      let ids := apps.map (fun a => a.id)
      let db2 := if ids.isEmpty then st.1 else cleanupStore s ids st.1
      (db2, some (decide (0 < st.2)))

/-- The app-info attribute vocabulary of `sync_attribute_data`. -/
def infoAttrs : List String :=
  ["name", "subtitle", "privacy_policy_url", "privacy_choices_url"]

/-- The version attribute vocabulary of `sync_attribute_data`. -/
def versionAttrs : List String :=
  ["description", "keywords", "marketing_url", "promotional_text", "support_url", "whats_new"]

/-- SQL comparison `platform = ?` against an optional parameter: a NULL
parameter or a NULL column value never matches. -/
def platformMatches (rowPlat : Option String) (param : Option String) : Bool :=
  match param, rowPlat with
  | some p, some rp => rp == p
  | _, _ => false

/-- The version list a successful platform-filtered fetch returns ([] when the
fetch does not succeed); lets environment assumptions about the remote be
stated decidably. -/
def versionsOf (R : Remote) (appId : String) (pf : Option String) : List VersionData :=
  match fetchVersions R appId pf with
  | FR.ok vl => vl
  | _ => []

/-- The localization list a successful fetch returns ([] otherwise). -/
def versionLocsOf (R : Remote) (versionId : String) : List VersionLocData :=
  match fetchVersionLocs R versionId with
  | FR.ok ll => ll
  | _ => []

/-- The WHERE clause of the version-scope delete in `sync_attribute_data`:
app, store, and platform all match. -/
def inVersScope (appId : String) (s : Nat) (pf : Option String) (r : VersionRow) : Bool :=
  r.app_id == appId && r.store_id == s && platformMatches r.platform pf

/-- The same scope condition on app_version_localizations rows. -/
def inVLocScope (appId : String) (s : Nat) (pf : Option String) (r : VersionLocRow) : Bool :=
  r.app_id == appId && r.store_id == s && platformMatches r.platform pf

/-- Version loop of app.py `sync_attribute_data`, run inside a single sqlite3
connection context manager: `conn.commit()` runs after each version whose
localizations were fetched; a raised fetch rolls back to the last committed
state and re-raises (`none`); normal block exit commits everything pending. -/
def syncVersionLoop (R : Remote) (appId : String) (s : Nat) :
    List VersionData → DB → DB → Bool → DB × Option Bool
  | [], _, current, success => (current, some success)
  | v :: vs, committed, current, success =>
    let cur1 := { current with app_versions :=
      (upsertBy VersionRow.version_id (mkVersionRowS appId s v) current.app_versions) }
    match fetchVersionLocs R v.id with
    | FR.exn => (committed, none)
    | FR.noData => syncVersionLoop R appId s vs committed cur1 false
    | FR.ok ll =>
      let cur2 := { cur1 with app_version_localizations :=
        (upsertFold VersionLocRow.localization_id
          (ll.map (mkVLocRowS appId s v.id v.platform))
          cur1.app_version_localizations) }
      syncVersionLoop R appId s vs cur2 cur2 success

/-- app.py `sync_attribute_data`: delete the attribute's cache scope first,
then re-fetch from the remote and insert.  Result `none` models a raised
exception (with the cache state at the raise); `some b` is the returned
success flag. -/
def syncAttributeData (R : Remote) (attr : String) (appId : String) (s : Nat)
    (platform : Option String) (db : DB) : DB × Option Bool :=
  if infoAttrs.contains attr then
    let db1 := { db with app_info_localizations :=
      (db.app_info_localizations.filter
        (fun r => !(r.app_id == appId && r.store_id == s))) }
    match fetchAppInfo R appId with
    | FR.exn => (db1, none)
    | FR.noData => (db1, some false)
    | FR.ok l =>
      if l.isEmpty then (db1, some false)
      else
        match fetchInfoLocs R (pickInfoId l) with
        | FR.exn => (db1, none)
        | FR.noData => (db1, some false)
        | FR.ok ll =>
          ({ db1 with app_info_localizations :=
            (upsertFold InfoLocRow.localization_id (ll.map (mkInfoLocRow appId s))
              db1.app_info_localizations) }, some true)
  else if versionAttrs.contains attr then
    let db1 := { db with
      app_version_localizations := db.app_version_localizations.filter
        (fun r => !(inVLocScope appId s platform r)),
      app_versions := db.app_versions.filter
        (fun r => !(inVersScope appId s platform r)) }
    match fetchVersions R appId platform with
    | FR.exn => (db1, none)
    | FR.noData => (db1, some false)
    | FR.ok vl => syncVersionLoop R appId s vl db1 db1 true
  else if attr == "screenshots" then
    let r := fetchScreenshotsDb R appId s platform db
    (r.1, if r.2 then some true else none)
  else
    (db, some true)

-- -------------------------------
-- Patch payloads and the save path
-- -------------------------------

/-- main.py ATTRIBUTE_MAPPING (snake_case → camelCase). -/
def ATTRIBUTE_MAPPING : List (String × String) :=
  [("privacy_policy_url", "privacyPolicyUrl"),
   ("privacy_choices_url", "privacyChoicesUrl"),
   ("marketing_url", "marketingUrl"),
   ("support_url", "supportUrl"),
   ("whats_new", "whatsNew"),
   ("name", "name"),
   ("subtitle", "subtitle"),
   ("description", "description"),
   ("keywords", "keywords"),
   ("promotional_text", "promotionalText")]

/-- `ATTRIBUTE_MAPPING.get(k, k)`. -/
def mapAttrKey (k : String) : String :=
  ((ATTRIBUTE_MAPPING.find? (fun p => p.1 == k)).map (fun p => p.2)).getD k

/-- `{ATTRIBUTE_MAPPING.get(k, k): v for k, v in attributes.items() if v is not None}`:
drop None values and translate the keys, preserving insertion order. -/
def mappedAttributes (attrs : List (String × Option String)) : List (String × String) :=
  attrs.filterMap (fun p => p.2.map (fun v => (mapAttrKey p.1, v)))

/-- The JSON body a PATCH sends: data.type, data.id, data.attributes. -/
structure PatchPayload where
  resourceType : String
  id : String
  attributes : List (String × String)
deriving DecidableEq, Repr

/-- main.py `patch_app_info_localization`: returns the success Bool
(`some false` on JWT failure, `none` for a raised AppleAPIError) together with
the payload sent, `none` when no request was issued. -/
def patchAppInfoLocalization (R : Remote) (locId : String)
    (attrs : List (String × Option String)) : Option Bool × Option PatchPayload :=
  if R.jwtOk then
    let payload : PatchPayload := ⟨"appInfoLocalizations", locId, mappedAttributes attrs⟩
    match R.patchInfoLoc locId attrs with
    | PatchR.ok => (some true, some payload)
    | PatchR.exn => (none, some payload)
  else (some false, none)

/-- main.py `patch_app_store_version_localization` (the second, effective
definition; the payload construction is identical). -/
def patchAppStoreVersionLocalization (R : Remote) (locId : String)
    (attrs : List (String × Option String)) : Option Bool × Option PatchPayload :=
  if R.jwtOk then
    let payload : PatchPayload := ⟨"appStoreVersionLocalizations", locId, mappedAttributes attrs⟩
    match R.patchVersionLoc locId attrs with
    | PatchR.ok => (some true, some payload)
    | PatchR.exn => (none, some payload)
  else (some false, none)

/-- Result of one patch call in app.py's save loop: `some b` is the returned
Bool, `none` a raised AppleAPIError. -/
def patchOutcome (R : Remote) (useInfo : Bool) (locId : String)
    (attrs : List (String × Option String)) : Option Bool :=
  if useInfo then (patchAppInfoLocalization R locId attrs).1
  else (patchAppStoreVersionLocalization R locId attrs).1

/-- The save loop `for loc_id, val in changes.items()`: a raised patch aborts
the loop (`none`); a False return clears the success flag but the loop
continues patching the remaining locales. -/
def runPatches (R : Remote) (useInfo : Bool) (attr : String) :
    List (String × Option String) → Bool → Option Bool
  | [], acc => some acc
  | c :: rest, acc =>
    match patchOutcome R useInfo c.1 [(attr, c.2)] with
    | none => none
    | some b => runPatches R useInfo attr rest (acc && b)

/-- Outcome of a Save Changes click: saved, save failed, or an uncaught
exception left the handler. -/
inductive SaveOutcome where
  | saved
  | failed
  | errored
deriving DecidableEq, Repr

/-- app.py Save Changes handler (the write-then-reconcile path): patch every
changed locale remotely; only if every patch returned True run
`sync_attribute_data` and the GitHub push.  Returns the cache, the outcome,
and whether `sync_attribute_data` was invoked. -/
def saveChanges (R : Remote) (attr : String)
    (changes : List (String × Option String)) (appId : String) (s : Nat)
    (platform : Option String) (db : DB) : DB × SaveOutcome × Bool :=
  let useInfo := infoAttrs.contains attr
  match runPatches R useInfo attr changes true with
  | none => (db, SaveOutcome.errored, false)
  | some false => (db, SaveOutcome.failed, false)
  | some true =>
    let r := syncAttributeData R attr appId s platform db
    match r.2 with
    | none => (r.1, SaveOutcome.errored, true)
    | some _ => (r.1, SaveOutcome.saved, true)

-- -------------------------------
-- GitHub-backed persistence
-- -------------------------------

/-- The local cache file as a blob: its bytes, plus whether a trivial SQLite
read probe on it would succeed (a ghost observation the code never makes). -/
structure GFile where
  bytes : List Nat
  sqliteOk : Bool
deriving DecidableEq, Repr

/-- The local filesystem slice the backup layer touches: the cache file and a
potential backup sibling. -/
structure FS where
  dbFile : Option GFile
  backupFile : Option GFile
deriving DecidableEq, Repr

/-- Response of the GitHub contents GET in `load_db_from_github`: a 200 with a
download_url (or base64 fallback) carrying the blob, or a non-200. -/
inductive GHGetRes where
  | found (viaDownloadUrl : Bool) (blob : GFile)
  | notFound
deriving DecidableEq, Repr

/-- main.py `load_db_from_github`: on a 200 response the downloaded blob is
written straight over the local cache file (via download_url or the base64
fallback); on a non-200 the local file is left alone.  No backup copy is made
and no integrity probe is run. -/
def loadDbFromGithub (res : GHGetRes) (fs : FS) : FS :=
  match res with
  | GHGetRes.found _ blob => { fs with dbFile := some blob }
  | GHGetRes.notFound => fs

/-- Result of the GET for the existing file's sha in `sync_db_to_github`. -/
inductive ShaRes where
  | okSha (sha : String)
  | non200
  | raised
deriving DecidableEq, Repr

/-- Result of the PUT in `sync_db_to_github`. -/
inductive PutRes where
  | ok2xx
  | non2xx
  | raised
deriving DecidableEq, Repr

/-- The GitHub contents API as seen by one `sync_db_to_github` call. -/
structure GHRemote where
  shaRes : ShaRes
  putRes : PutRes
deriving DecidableEq, Repr

/-- Observable outcome of `sync_db_to_github`. -/
inductive SyncResult where
  | skipped
  | synced
  | putFailedLogged
  | raisedExn
deriving DecidableEq, Repr

/-- main.py `sync_db_to_github`: skip when the cache file is missing or smaller
than 1000 bytes; otherwise GET the sha and PUT the content.  A non-2xx PUT is
logged and the function returns; a raised requests exception propagates.  No
integrity probe is run on the file. -/
def syncDbToGithub (g : GHRemote) (fs : FS) : SyncResult :=
  match fs.dbFile with
  | none => SyncResult.skipped
  | some f =>
    if f.bytes.length < 1000 then SyncResult.skipped
    else
      match g.shaRes with
      | ShaRes.raised => SyncResult.raisedExn
      | _ =>
        match g.putRes with
        | PutRes.raised => SyncResult.raisedExn
        | PutRes.ok2xx => SyncResult.synced
        | PutRes.non2xx => SyncResult.putFailedLogged

-- -------------------------------
-- Characterization machinery (used by the theorems below)
-- -------------------------------

/-- Effect of a pipeline of scoped deletes and inserts on one table: rows
satisfying `keep` survive, and `new` is appended. -/
structure Eff (α : Type) where
  keep : α → Bool
  new : List α

/-- Run an effect on a table. -/
def Eff.applyE {α : Type} (e : Eff α) (l : List α) : List α :=
  l.filter e.keep ++ e.new

/-- Sequential composition: `e1` first, then `e2`. -/
def Eff.compE {α : Type} (e1 e2 : Eff α) : Eff α :=
  ⟨fun x => e2.keep x && e1.keep x, e1.new.filter e2.keep ++ e2.new⟩

/-- The identity effect. -/
def Eff.idE {α : Type} : Eff α := ⟨fun _ => true, []⟩

/-- An effect whose inserted rows would all be deleted by its own filter: the
key to idempotence of delete-then-insert pipelines. -/
def SelfKill {α : Type} (e : Eff α) : Prop := ∀ x ∈ e.new, e.keep x = false

/-- Composed effect of a per-item effect over a list, head applied first. -/
def foldEff {α β : Type} (f : β → Eff α) : List β → Eff α
  | [] => Eff.idE
  | b :: L => (f b).compE (foldEff f L)

/-- Rows inserted into app_info_localizations by `process_app` STEP 3. -/
def infoNewRows (R : Remote) (s : Nat) (appId : String) : List InfoLocRow :=
  match fetchAppInfo R appId with
  | FR.ok l =>
    if l.isEmpty then []
    else
      match fetchInfoLocs R (pickInfoId l) with
      | FR.ok ll => ll.map (mkInfoLocRow appId s)
      | _ => []
  | _ => []

/-- Whether `process_app` STEP 3 completes without raising. -/
def infoOkP (R : Remote) (appId : String) : Bool :=
  match fetchAppInfo R appId with
  | FR.exn => false
  | FR.noData => true
  | FR.ok l =>
    if l.isEmpty then true
    else
      match fetchInfoLocs R (pickInfoId l) with
      | FR.exn => false
      | _ => true

/-- app_versions rows upserted by the STEP 4 loop, truncated at a raised
localization fetch (the failing version's own row is already committed). -/
def versLoopRows (R : Remote) (s : Nat) (appId : String) :
    List VersionData → List VersionRow
  | [] => []
  | v :: vs =>
    mkVersionRowP appId s v ::
      (match fetchVersionLocs R v.id with
       | FR.exn => []
       | _ => versLoopRows R s appId vs)

/-- app_version_localizations rows upserted by the STEP 4 loop. -/
def vlocLoopRows (R : Remote) (s : Nat) (appId : String) :
    List VersionData → List VersionLocRow
  | [] => []
  | v :: vs =>
    match fetchVersionLocs R v.id with
    | FR.exn => []
    | FR.noData => vlocLoopRows R s appId vs
    | FR.ok ll =>
      ll.map (mkVLocRowP appId s v.id (v.platform.getD "UNKNOWN")) ++
        vlocLoopRows R s appId vs

/-- Whether the STEP 4 loop completes without raising. -/
def versLoopOk (R : Remote) : List VersionData → Bool
  | [] => true
  | v :: vs =>
    match fetchVersionLocs R v.id with
    | FR.exn => false
    | _ => versLoopOk R vs

/-- app_versions rows STEP 4 would upsert (empty on a failed versions fetch). -/
def versRowsFlat (R : Remote) (s : Nat) (appId : String) : List VersionRow :=
  match fetchVersions R appId none with
  | FR.ok vl => versLoopRows R s appId vl
  | _ => []

/-- app_version_localizations rows STEP 4 would upsert. -/
def vlocRowsFlat (R : Remote) (s : Nat) (appId : String) : List VersionLocRow :=
  match fetchVersions R appId none with
  | FR.ok vl => vlocLoopRows R s appId vl
  | _ => []

/-- Whether STEP 4 completes without raising. -/
def versOkFlat (R : Remote) (appId : String) : Bool :=
  match fetchVersions R appId none with
  | FR.exn => false
  | FR.noData => true
  | FR.ok vl => versLoopOk R vl

/-- app_versions rows `process_app` actually upserts (STEP 4 is reached only
when STEP 3 did not raise). -/
def versNewRows (R : Remote) (s : Nat) (appId : String) : List VersionRow :=
  if infoOkP R appId then versRowsFlat R s appId else []

/-- app_version_localizations rows `process_app` actually upserts. -/
def vlocNewRows (R : Remote) (s : Nat) (appId : String) : List VersionLocRow :=
  if infoOkP R appId then vlocRowsFlat R s appId else []

/-- The `all_screenshots` list of a completed collection, else empty. -/
def collectedShots (R : Remote) (s : Nat) (appId : String) : List ShotRow :=
  match collectAllShots R appId s none with
  | ScreenFetch.collected l => l
  | _ => []

/-- Whether `fetch_screenshots` completes without raising. -/
def screensOkFlat (R : Remote) (s : Nat) (appId : String) : Bool :=
  match collectAllShots R appId s none with
  | ScreenFetch.exn => false
  | _ => true

/-- app_screenshots rows `process_app` actually inserts (STEP 5 is reached
only when STEPs 3 and 4 did not raise). -/
def shotsNew (R : Remote) (s : Nat) (appId : String) : List ShotRow :=
  if infoOkP R appId && versOkFlat R appId then collectedShots R s appId else []

/-- Whether `process_app` returns (rather than raising). -/
def processAppOkDef (R : Remote) (s : Nat) (appId : String) : Bool :=
  infoOkP R appId && (versOkFlat R appId && screensOkFlat R s appId)

/-- Effect of one `process_app` call on the apps table. -/
def effApps (s : Nat) (a : AppListing) : Eff AppRow :=
  ⟨fun r => !(r.app_id == a.id), [mkAppRow s a]⟩

/-- Effect of one `process_app` call on app_info_localizations. -/
def effInfo (R : Remote) (s : Nat) (a : AppListing) : Eff InfoLocRow :=
  ⟨fun r => !(r.app_id == a.id && r.store_id == s) &&
      !((infoNewRows R s a.id).any (fun n => r.localization_id == n.localization_id)),
    upsertFold InfoLocRow.localization_id (infoNewRows R s a.id) []⟩

/-- Effect of one `process_app` call on app_versions. -/
def effVers (R : Remote) (s : Nat) (a : AppListing) : Eff VersionRow :=
  ⟨fun r => !(r.app_id == a.id && r.store_id == s) &&
      !((versNewRows R s a.id).any (fun n => r.version_id == n.version_id)),
    upsertFold VersionRow.version_id (versNewRows R s a.id) []⟩

/-- Effect of one `process_app` call on app_version_localizations. -/
def effVLocs (R : Remote) (s : Nat) (a : AppListing) : Eff VersionLocRow :=
  ⟨fun r => !(r.app_id == a.id && r.store_id == s) &&
      !((vlocNewRows R s a.id).any (fun n => r.localization_id == n.localization_id)),
    upsertFold VersionLocRow.localization_id (vlocNewRows R s a.id) []⟩

/-- Effect of one `process_app` call on app_screenshots (valid when the
inserted ids do not collide with rows outside this app's scope). -/
def effScreens (R : Remote) (s : Nat) (a : AppListing) : Eff ShotRow :=
  ⟨fun r => !(r.app_id == a.id && r.store_id == s),
    ignoreFold ShotRow.id (shotsNew R s a.id) []⟩

/-- No two distinct listed apps are served screenshots with the same id. -/
def CAshots (R : Remote) (s : Nat) (L : List AppListing) : Prop :=
  ∀ a ∈ L, ∀ b ∈ L, a ≠ b →
    ∀ t ∈ shotsNew R s a.id, ∀ u ∈ shotsNew R s b.id, t.id ≠ u.id

/-- Every cached screenshot row sharing an id with a fetched screenshot of a
listed app already belongs to that app's (app, store) scope. -/
def PreShots (R : Remote) (s : Nat) (L : List AppListing) (tbl : List ShotRow) : Prop :=
  ∀ a ∈ L, ∀ t ∈ shotsNew R s a.id, ∀ x ∈ tbl,
    x.id = t.id → x.app_id = a.id ∧ x.store_id = s

instance (R : Remote) (s : Nat) (L : List AppListing) : Decidable (CAshots R s L) :=
  inferInstanceAs (Decidable (∀ a ∈ L, ∀ b ∈ L, a ≠ b →
    ∀ t ∈ shotsNew R s a.id, ∀ u ∈ shotsNew R s b.id, t.id ≠ u.id))

instance (R : Remote) (s : Nat) (L : List AppListing) (tbl : List ShotRow) :
    Decidable (PreShots R s L tbl) :=
  inferInstanceAs (Decidable (∀ a ∈ L, ∀ t ∈ shotsNew R s a.id, ∀ x ∈ tbl,
    x.id = t.id → x.app_id = a.id ∧ x.store_id = s))

/-- The empty cache. -/
def emptyDB : DB := ⟨[], [], [], [], []⟩

-- -------------------------------
-- Concrete oracles and caches for counterexamples and witnesses
-- -------------------------------

/-- A default remote whose every endpoint returns a None-style response. -/
def quietRemote : Remote :=
  { jwtOk := true
    listApps := FR.noData
    appInfos := fun _ => FR.noData
    infoLocs := fun _ => FR.noData
    versions := fun _ _ => FR.noData
    versionLocs := fun _ => FR.noData
    shotSets := fun _ => FR.noData
    shots := fun _ => FR.noData
    patchInfoLoc := fun _ _ => PatchR.ok
    patchVersionLoc := fun _ _ => PatchR.ok }

/-- Remote for the C1 witness: the patch of localization L1 is rejected. -/
def remoteC1 : Remote :=
  { quietRemote with
    patchInfoLoc := fun locId _ => if locId == "L1" then PatchR.exn else PatchR.ok }

/-- Remote for C2: every re-fetch returns no data. -/
def remoteC2 : Remote := quietRemote

/-- Cache for the C2 counterexample: one cached app-info localization row. -/
def dbC2 : DB :=
  { emptyDB with app_info_localizations :=
      [⟨"L1", "A", 1, some "en-US", some "Widget", some "Best widget", none, none⟩] }

/-- Remote for the C3 counterexample: the store's listing is empty. -/
def remoteC3 : Remote := { quietRemote with listApps := FR.ok [] }

/-- Cache for the C3 counterexample: one stale app row of store 1. -/
def dbC3 : DB := { emptyDB with apps := [⟨"B", 1, "Gone"⟩] }

/-- Remote for the C3 witness: one listed app, all detail fetches empty. -/
def remoteC3w : Remote :=
  { quietRemote with listApps := FR.ok [⟨"A", some "Widget"⟩] }

/-- Remote for C4: apps A and B; A's IOS version carries screenshot X; B has
no versions. -/
def remoteC4 : Remote :=
  { quietRemote with
    listApps := FR.ok [⟨"A", some "AppA"⟩, ⟨"B", some "AppB"⟩]
    versions := fun appId _ =>
      if appId == "A" then FR.ok [⟨"vA", some "IOS"⟩] else FR.ok []
    versionLocs := fun vid =>
      if vid == "vA" then FR.ok [⟨"lA", some "en-US", none, none, none, none, none, none⟩]
      else FR.noData
    shotSets := fun lid =>
      if lid == "lA" then FR.ok [⟨"setA", "APP_IPHONE_65"⟩] else FR.noData
    shots := fun sid =>
      if sid == "setA" then FR.ok [⟨"X", "http://img", 100, 200⟩] else FR.noData }

/-- Cache for the C4 counterexample: a stale screenshot row with id X filed
under app B of the same store. -/
def dbC4 : DB :=
  { emptyDB with app_screenshots :=
      [⟨"X", "B", 1, "oldLoc", "en-US", "APP_IPHONE_65", "http://old", 1, 2, "IOS"⟩] }

/-- Remote for the C7 witness: app A has one IOS version in
PREPARE_FOR_SUBMISSION with one localization. -/
def remoteC7 : Remote :=
  { quietRemote with
    versions := fun appId pf =>
      if appId == "A" && pf == some "IOS" then FR.ok [⟨"v1", some "IOS"⟩]
      else FR.noData
    versionLocs := fun vid =>
      if vid == "v1" then
        FR.ok [⟨"l1", some "en-US", some "new description", none, none, none, none, none⟩]
      else FR.noData }

/-- Cache for the C7 witness: rows of the touched IOS scope, a MAC_OS row of
the same app, rows of another app, and an app-info row. -/
def dbC7 : DB :=
  { apps := [⟨"A", 1, "AppA"⟩, ⟨"Other", 1, "OtherApp"⟩]
    app_info_localizations := [⟨"il1", "A", 1, some "en-US", some "AppA", none, none, none⟩]
    app_versions :=
      [⟨"v1", "A", 1, some "IOS"⟩, ⟨"vMac", "A", 1, some "MAC_OS"⟩,
       ⟨"vOther", "Other", 1, some "IOS"⟩]
    app_version_localizations :=
      [⟨"l1", "v1", "A", 1, some "en-US", some "old description", none, none, none, none, none, some "IOS"⟩,
       ⟨"lMac", "vMac", "A", 1, some "en-US", some "mac description", none, none, none, none, none, some "MAC_OS"⟩,
       ⟨"lOther", "vOther", "Other", 1, some "en-US", some "other description", none, none, none, none, none, some "IOS"⟩]
    app_screenshots := [⟨"S1", "A", 1, "l1", "en-US", "APP_IPHONE_65", "u", 1, 2, "IOS"⟩] }

/-- Remote for the C9 witness: app A's info fetch raises, app B succeeds. -/
def remoteC9 : Remote :=
  { quietRemote with
    listApps := FR.ok [⟨"A", some "AppA"⟩, ⟨"B", some "AppB"⟩]
    appInfos := fun appId => if appId == "A" then FR.exn else FR.noData }

/-- A well-formed local cache file and a corrupted zero-byte download. -/
def goodFile : GFile := ⟨[1, 2, 3, 4], true⟩

/-- The corrupted (zero-byte) downloaded blob of the C5 counterexample. -/
def corruptBlob : GFile := ⟨[], false⟩

/-- Local filesystem before the C5 restore: a working cache, no backup. -/
def fsC5 : FS := ⟨some goodFile, none⟩

/-- A cache file large enough to pass the size guard but failing the
(unimplemented) integrity probe. -/
def bigCorruptFile : GFile := ⟨List.replicate 1000 0, false⟩

/-- GitHub remote for the C6 counterexample: both calls succeed. -/
def ghC6 : GHRemote := ⟨ShaRes.okSha "abc", PutRes.ok2xx⟩

-- -------------------------------
-- Theorems: generic lemmas about the SQLite-style list operations
-- -------------------------------

theorem upsertFold_nil {α : Type} (key : α → String) (l : List α) :
    upsertFold key [] l = l := rfl

theorem upsertFold_cons {α : Type} (key : α → String) (r : α) (rows l : List α) :
    upsertFold key (r :: rows) l = upsertFold key rows (upsertBy key r l) := rfl

theorem upsertFold_append {α : Type} (key : α → String) (rows1 rows2 l : List α) :
    upsertFold key (rows1 ++ rows2) l = upsertFold key rows2 (upsertFold key rows1 l) :=
  List.foldl_append _ _ _ _

/-- Characterization of an `INSERT OR REPLACE` loop: surviving old rows are
those whose key none of the inserted rows carries, followed by the canonical
insertion into an empty table. -/
theorem upsertFold_char {α : Type} (key : α → String) (rows : List α) (l : List α) :
    upsertFold key rows l =
      l.filter (fun x => !(rows.any (fun r => key x == key r))) ++ upsertFold key rows [] := by
  induction rows generalizing l with
  | nil => simp [upsertFold]
  | cons r rs ih =>
    rw [upsertFold_cons, upsertFold_cons, ih (upsertBy key r l), ih (upsertBy key r [])]
    show (upsertBy key r l).filter _ ++ _ = _ ++ ((upsertBy key r []).filter _ ++ _)
    rw [upsertBy, upsertBy, List.filter_append, List.filter_filter]
    simp only [List.filter_nil, List.nil_append, List.append_assoc]
    congr 1
    apply List.filter_congr
    intro x _
    simp [List.any_cons, Bool.not_or, Bool.and_comm]

theorem mem_upsertFold {α : Type} (key : α → String) (rows l : List α) (x : α)
    (hx : x ∈ upsertFold key rows l) : x ∈ l ∨ x ∈ rows := by
  induction rows generalizing l with
  | nil => exact Or.inl hx
  | cons r rs ih =>
    rw [upsertFold_cons] at hx
    rcases ih (upsertBy key r l) hx with h | h
    · rw [upsertBy] at h
      rcases List.mem_append.mp h with h2 | h2
      · exact Or.inl (List.mem_filter.mp h2).1
      · simp only [List.mem_singleton] at h2
        subst h2
        exact Or.inr (List.mem_cons_self _ _)
    · exact Or.inr (List.mem_cons_of_mem _ h)

theorem ignoreFold_nil {α : Type} (key : α → String) (l : List α) :
    ignoreFold key [] l = l := rfl

theorem ignoreFold_cons {α : Type} (key : α → String) (r : α) (rows l : List α) :
    ignoreFold key (r :: rows) l = ignoreFold key rows (insertIgnoreBy key r l) := rfl

/-- An `INSERT OR IGNORE` loop over a table whose prefix contains none of the
inserted keys leaves the prefix alone. -/
theorem ignoreFold_append_left {α : Type} (key : α → String) (rows l m : List α)
    (h : ∀ r ∈ rows, ∀ x ∈ l, (key x == key r) = false) :
    ignoreFold key rows (l ++ m) = l ++ ignoreFold key rows m := by
  induction rows generalizing m with
  | nil => rfl
  | cons r rs ih =>
    rw [ignoreFold_cons, ignoreFold_cons]
    have hl : l.any (fun x => key x == key r) = false := by
      rw [List.any_eq_false]
      intro x hx
      simp [h r (List.mem_cons_self _ _) x hx]
    have hrs : ∀ r' ∈ rs, ∀ x ∈ l, (key x == key r') = false :=
      fun r' hr' => h r' (List.mem_cons_of_mem _ hr')
    by_cases hm : m.any (fun x => key x == key r) = true
    · have : insertIgnoreBy key r (l ++ m) = l ++ m := by
        simp [insertIgnoreBy, List.any_append, hl, hm]
      rw [this]
      have : insertIgnoreBy key r m = m := by simp [insertIgnoreBy, hm]
      rw [this]
      exact ih m hrs
    · have hm' : m.any (fun x => key x == key r) = false := by
        revert hm
        cases m.any (fun x => key x == key r) <;> simp
      have h1 : insertIgnoreBy key r (l ++ m) = l ++ (m ++ [r]) := by
        simp [insertIgnoreBy, List.any_append, hl, hm', List.append_assoc]
      have h2 : insertIgnoreBy key r m = m ++ [r] := by
        simp [insertIgnoreBy, hm']
      rw [h1, h2]
      exact ih (m ++ [r]) hrs

theorem mem_ignoreFold {α : Type} (key : α → String) (rows l : List α) (x : α)
    (hx : x ∈ ignoreFold key rows l) : x ∈ l ∨ x ∈ rows := by
  induction rows generalizing l with
  | nil => exact Or.inl hx
  | cons r rs ih =>
    rw [ignoreFold_cons] at hx
    rcases ih (insertIgnoreBy key r l) hx with h | h
    · rw [insertIgnoreBy] at h
      by_cases hc : l.any (fun y => key y == key r) = true
      · rw [if_pos hc] at h
        exact Or.inl h
      · rw [if_neg hc] at h
        rcases List.mem_append.mp h with h2 | h2
        · exact Or.inl h2
        · simp only [List.mem_singleton] at h2
          subst h2
          exact Or.inr (List.mem_cons_self _ _)
    · exact Or.inr (List.mem_cons_of_mem _ h)

/-- Composing a scope filter into an existing filter is a no-op when every row
the scope filter would remove already fails the outer filter. -/
theorem filter_filter_of_imp {α : Type} (l : List α) (p q : α → Bool)
    (h : ∀ r ∈ l, q r = false → p r = false) :
    (l.filter q).filter p = l.filter p := by
  induction l with
  | nil => rfl
  | cons x xs ih =>
    have ih' := ih (fun r hr => h r (List.mem_cons_of_mem _ hr))
    by_cases hq : q x = true
    · simp only [List.filter_cons, hq, if_true]
      by_cases hp : p x = true
      · simp [List.filter_cons, hp, ih']
      · have hp' : p x = false := by revert hp; cases p x <;> simp
        simp [List.filter_cons, hp', ih']
    · have hq' : q x = false := by revert hq; cases q x <;> simp
      have hp' : p x = false := h x (List.mem_cons_self _ _) hq'
      simp [List.filter_cons, hq', hp', ih']

-- -------------------------------
-- Theorems: the effect algebra
-- -------------------------------

theorem Eff.applyE_comp {α : Type} (e1 e2 : Eff α) (l : List α) :
    (e1.compE e2).applyE l = e2.applyE (e1.applyE l) := by
  simp [Eff.applyE, Eff.compE, List.filter_append, List.filter_filter, List.append_assoc]

theorem Eff.applyE_idE {α : Type} (l : List α) : (Eff.idE).applyE l = l := by
  simp [Eff.applyE, Eff.idE]

theorem selfKill_compE {α : Type} (e1 e2 : Eff α)
    (h1 : SelfKill e1) (h2 : SelfKill e2) : SelfKill (e1.compE e2) := by
  intro x hx
  simp only [Eff.compE] at hx ⊢
  rcases List.mem_append.mp hx with h | h
  · have := List.mem_filter.mp h
    rw [this.2, h1 x this.1, Bool.true_and]
  · rw [h2 x h, Bool.false_and]

theorem Eff.applyE_idem {α : Type} (e : Eff α) (h : SelfKill e) (l : List α) :
    e.applyE (e.applyE l) = e.applyE l := by
  simp only [Eff.applyE, List.filter_append, List.filter_filter]
  have h1 : (List.filter (fun a => e.keep a && e.keep a) l) = l.filter e.keep := by
    apply List.filter_congr
    intro x _
    rw [Bool.and_self]
  have h2 : e.new.filter e.keep = [] := by
    rw [List.filter_eq_nil_iff]
    intro x hx
    rw [h x hx]
    simp
  rw [h1, h2, List.append_nil]

theorem selfKill_foldEff {α β : Type} (f : β → Eff α) (L : List β)
    (h : ∀ b ∈ L, SelfKill (f b)) : SelfKill (foldEff f L) := by
  induction L with
  | nil =>
    intro x hx
    simp [foldEff, Eff.idE] at hx
  | cons b bs ih =>
    exact selfKill_compE _ _ (h b (List.mem_cons_self _ _))
      (ih (fun c hc => h c (List.mem_cons_of_mem _ hc)))

theorem mem_foldEff_new {α β : Type} (f : β → Eff α) (L : List β) (x : α)
    (hx : x ∈ (foldEff f L).new) : ∃ b ∈ L, x ∈ (f b).new := by
  induction L with
  | nil => simp [foldEff, Eff.idE] at hx
  | cons b bs ih =>
    simp only [foldEff, Eff.compE] at hx
    rcases List.mem_append.mp hx with h | h
    · exact ⟨b, List.mem_cons_self _ _, (List.mem_filter.mp h).1⟩
    · rcases ih h with ⟨c, hc, hmem⟩
      exact ⟨c, List.mem_cons_of_mem _ hc, hmem⟩

theorem foldEff_cons_applyE {α β : Type} (f : β → Eff α) (b : β) (L : List β) (l : List α) :
    (foldEff f (b :: L)).applyE l = (foldEff f L).applyE ((f b).applyE l) := by
  rw [foldEff, Eff.applyE_comp]

theorem filter_comm_and {α : Type} (l : List α) (p q : α → Bool) :
    (l.filter q).filter p = l.filter (fun x => q x && p x) := by
  rw [List.filter_filter]
  apply List.filter_congr
  intro x _
  rw [Bool.and_comm]

-- -------------------------------
-- Theorems: characterization of the process_app pipeline
-- -------------------------------

theorem processVersionsP_char (R : Remote) (s : Nat) (appId : String)
    (vl : List VersionData) (db : DB) :
    processVersionsP R s appId vl db =
      ({ db with
          app_versions :=
            (upsertFold VersionRow.version_id (versLoopRows R s appId vl) db.app_versions),
          app_version_localizations :=
            (upsertFold VersionLocRow.localization_id (vlocLoopRows R s appId vl)
              db.app_version_localizations) },
        versLoopOk R vl) := by
  induction vl generalizing db with
  | nil => rfl
  | cons v vs ih =>
    cases db
    simp only [processVersionsP, versLoopRows, vlocLoopRows, versLoopOk]
    cases hf : fetchVersionLocs R v.id with
    | exn => rfl
    | noData =>
      dsimp only
      rw [ih]
      rfl
    | ok ll =>
      dsimp only
      rw [ih]
      simp only [upsertFold_cons, upsertFold_append]

theorem step3Info_char (R : Remote) (s : Nat) (appId : String) (db : DB) :
    step3Info R s appId db =
      ({ db with app_info_localizations :=
          (upsertFold InfoLocRow.localization_id (infoNewRows R s appId)
            db.app_info_localizations) },
        infoOkP R appId) := by
  cases db
  simp only [step3Info, infoNewRows, infoOkP]
  cases hfi : fetchAppInfo R appId with
  | exn => rfl
  | noData => rfl
  | ok l =>
    by_cases hl : l.isEmpty
    · simp only [hl, if_true]
      rfl
    · simp only [hl, if_false]
      cases hfl : fetchInfoLocs R (pickInfoId l) with
      | exn => rfl
      | noData => rfl
      | ok ll => rfl

theorem step4Versions_char (R : Remote) (s : Nat) (appId : String) (db : DB) :
    step4Versions R s appId db =
      ({ db with
          app_versions :=
            (upsertFold VersionRow.version_id (versRowsFlat R s appId) db.app_versions),
          app_version_localizations :=
            (upsertFold VersionLocRow.localization_id (vlocRowsFlat R s appId)
              db.app_version_localizations) },
        versOkFlat R appId) := by
  cases db
  simp only [step4Versions, versRowsFlat, vlocRowsFlat, versOkFlat]
  cases hv : fetchVersions R appId none with
  | exn => rfl
  | noData => rfl
  | ok vl =>
    dsimp only
    rw [processVersionsP_char]

theorem fetchScreenshotsDb_apps (R : Remote) (appId : String) (s : Nat)
    (pf : Option String) (db : DB) :
    (fetchScreenshotsDb R appId s pf db).1.apps = db.apps := by
  cases h : collectAllShots R appId s pf <;> simp [fetchScreenshotsDb, h, writeShots]

theorem fetchScreenshotsDb_info (R : Remote) (appId : String) (s : Nat)
    (pf : Option String) (db : DB) :
    (fetchScreenshotsDb R appId s pf db).1.app_info_localizations =
      db.app_info_localizations := by
  cases h : collectAllShots R appId s pf <;> simp [fetchScreenshotsDb, h, writeShots]

theorem fetchScreenshotsDb_vers (R : Remote) (appId : String) (s : Nat)
    (pf : Option String) (db : DB) :
    (fetchScreenshotsDb R appId s pf db).1.app_versions = db.app_versions := by
  cases h : collectAllShots R appId s pf <;> simp [fetchScreenshotsDb, h, writeShots]

theorem fetchScreenshotsDb_vlocs (R : Remote) (appId : String) (s : Nat)
    (pf : Option String) (db : DB) :
    (fetchScreenshotsDb R appId s pf db).1.app_version_localizations =
      db.app_version_localizations := by
  cases h : collectAllShots R appId s pf <;> simp [fetchScreenshotsDb, h, writeShots]

theorem fetchScreenshotsDb_snd (R : Remote) (appId : String) (s : Nat) (db : DB) :
    (fetchScreenshotsDb R appId s none db).2 = screensOkFlat R s appId := by
  cases h : collectAllShots R appId s none <;> simp [fetchScreenshotsDb, h, screensOkFlat]

theorem effInfo_applyE (R : Remote) (s : Nat) (a : AppListing) (l : List InfoLocRow) :
    upsertFold InfoLocRow.localization_id (infoNewRows R s a.id)
      (l.filter (fun r => !(r.app_id == a.id && r.store_id == s))) =
      (effInfo R s a).applyE l := by
  dsimp only [effInfo, Eff.applyE]
  rw [upsertFold_char, filter_comm_and]

theorem effVers_applyE (R : Remote) (s : Nat) (a : AppListing) (l : List VersionRow)
    (h3 : infoOkP R a.id = true) :
    upsertFold VersionRow.version_id (versRowsFlat R s a.id)
      (l.filter (fun r => !(r.app_id == a.id && r.store_id == s))) =
      (effVers R s a).applyE l := by
  dsimp only [effVers, Eff.applyE]
  rw [versNewRows, if_pos h3, upsertFold_char, filter_comm_and]

theorem effVLocs_applyE (R : Remote) (s : Nat) (a : AppListing) (l : List VersionLocRow)
    (h3 : infoOkP R a.id = true) :
    upsertFold VersionLocRow.localization_id (vlocRowsFlat R s a.id)
      (l.filter (fun r => !(r.app_id == a.id && r.store_id == s))) =
      (effVLocs R s a).applyE l := by
  dsimp only [effVLocs, Eff.applyE]
  rw [vlocNewRows, if_pos h3, upsertFold_char, filter_comm_and]

theorem effVers_applyE_bad (R : Remote) (s : Nat) (a : AppListing) (l : List VersionRow)
    (h3 : infoOkP R a.id = false) :
    l.filter (fun r => !(r.app_id == a.id && r.store_id == s)) =
      (effVers R s a).applyE l := by
  dsimp only [effVers, Eff.applyE]
  rw [versNewRows, if_neg (by simp [h3])]
  simp [upsertFold_nil]

theorem effVLocs_applyE_bad (R : Remote) (s : Nat) (a : AppListing) (l : List VersionLocRow)
    (h3 : infoOkP R a.id = false) :
    l.filter (fun r => !(r.app_id == a.id && r.store_id == s)) =
      (effVLocs R s a).applyE l := by
  dsimp only [effVLocs, Eff.applyE]
  rw [vlocNewRows, if_neg (by simp [h3])]
  simp [upsertFold_nil]

theorem processApp_apps (R : Remote) (s : Nat) (a : AppListing) (db : DB) :
    (processApp R s a db).1.apps = (effApps s a).applyE db.apps := by
  cases db
  simp only [processApp, deleteAppScopeData, andThen, step3Info_char, step4Versions_char]
  cases h3 : infoOkP R a.id
  · simp [effApps, Eff.applyE, upsertBy, mkAppRow]
  · cases h4 : versOkFlat R a.id
    · simp [effApps, Eff.applyE, upsertBy, mkAppRow]
    · simp [fetchScreenshotsDb_apps, effApps, Eff.applyE, upsertBy, mkAppRow]

theorem processApp_info (R : Remote) (s : Nat) (a : AppListing) (db : DB) :
    (processApp R s a db).1.app_info_localizations =
      (effInfo R s a).applyE db.app_info_localizations := by
  cases db
  simp only [processApp, deleteAppScopeData, andThen, step3Info_char, step4Versions_char]
  cases h3 : infoOkP R a.id
  · simp only [Bool.false_eq_true, if_false]
    exact effInfo_applyE R s a _
  · cases h4 : versOkFlat R a.id
    · simp only [if_true, Bool.false_eq_true, if_false]
      exact effInfo_applyE R s a _
    · simp only [if_true, fetchScreenshotsDb_info]
      exact effInfo_applyE R s a _

theorem processApp_vers (R : Remote) (s : Nat) (a : AppListing) (db : DB) :
    (processApp R s a db).1.app_versions = (effVers R s a).applyE db.app_versions := by
  cases db
  simp only [processApp, deleteAppScopeData, andThen, step3Info_char, step4Versions_char]
  cases h3 : infoOkP R a.id
  · simp only [Bool.false_eq_true, if_false]
    exact effVers_applyE_bad R s a _ h3
  · cases h4 : versOkFlat R a.id
    · simp only [if_true, Bool.false_eq_true, if_false]
      exact effVers_applyE R s a _ h3
    · simp only [if_true, fetchScreenshotsDb_vers]
      exact effVers_applyE R s a _ h3

theorem processApp_vlocs (R : Remote) (s : Nat) (a : AppListing) (db : DB) :
    (processApp R s a db).1.app_version_localizations =
      (effVLocs R s a).applyE db.app_version_localizations := by
  cases db
  simp only [processApp, deleteAppScopeData, andThen, step3Info_char, step4Versions_char]
  cases h3 : infoOkP R a.id
  · simp only [Bool.false_eq_true, if_false]
    exact effVLocs_applyE_bad R s a _ h3
  · cases h4 : versOkFlat R a.id
    · simp only [if_true, Bool.false_eq_true, if_false]
      exact effVLocs_applyE R s a _ h3
    · simp only [if_true, fetchScreenshotsDb_vlocs]
      exact effVLocs_applyE R s a _ h3

theorem filter_self_filter {α : Type} (l : List α) (p : α → Bool) :
    (l.filter p).filter p = l.filter p := by
  rw [filter_comm_and]
  apply List.filter_congr
  intro x _
  rw [Bool.and_self]

theorem processApp_screens (R : Remote) (s : Nat) (a : AppListing) (db : DB)
    (h : ∀ t ∈ shotsNew R s a.id, ∀ x ∈ db.app_screenshots,
        x.id = t.id → x.app_id = a.id ∧ x.store_id = s) :
    (processApp R s a db).1.app_screenshots =
      (effScreens R s a).applyE db.app_screenshots := by
  cases db with
  | mk apps0 info0 vers0 vlocs0 screens0 =>
  simp only at h
  simp only [processApp, deleteAppScopeData, andThen, step3Info_char, step4Versions_char]
  cases h3 : infoOkP R a.id
  · simp [effScreens, Eff.applyE, shotsNew, h3, ignoreFold_nil]
  · cases h4 : versOkFlat R a.id
    · simp [effScreens, Eff.applyE, shotsNew, h3, h4, ignoreFold_nil]
    · simp only [if_true]
      have hsn : shotsNew R s a.id = collectedShots R s a.id := by
        simp [shotsNew, h3, h4]
      cases h5 : collectAllShots R a.id s none with
      | exn =>
        simp [fetchScreenshotsDb, h5, effScreens, Eff.applyE, hsn, collectedShots,
          ignoreFold_nil]
      | noWrite =>
        simp [fetchScreenshotsDb, h5, effScreens, Eff.applyE, hsn, collectedShots,
          ignoreFold_nil]
      | collected l =>
        have hl : shotsNew R s a.id = l := by
          rw [hsn]
          simp [collectedShots, h5]
        simp only [fetchScreenshotsDb, h5, writeShots]
        dsimp only [effScreens, Eff.applyE]
        rw [hl]
        rw [filter_self_filter]
        have hdisj : ∀ r ∈ l, ∀ x ∈ screens0.filter
            (fun r2 => !(r2.app_id == a.id && r2.store_id == s)),
            (ShotRow.id x == ShotRow.id r) = false := by
          intro r hr x hx
          rcases List.mem_filter.mp hx with ⟨hx0, hg⟩
          rw [beq_eq_false_iff_ne]
          intro hid
          have hsc := h r (hl ▸ hr) x hx0 hid
          rw [hsc.1, hsc.2] at hg
          simp at hg
        have hfold := ignoreFold_append_left ShotRow.id l
          (screens0.filter (fun r2 => !(r2.app_id == a.id && r2.store_id == s))) [] hdisj
        rw [List.append_nil] at hfold
        exact hfold

theorem processApp_snd (R : Remote) (s : Nat) (a : AppListing) (db : DB) :
    (processApp R s a db).2 = processAppOkDef R s a.id := by
  cases db
  simp only [processApp, deleteAppScopeData, andThen, step3Info_char, step4Versions_char,
    processAppOkDef]
  cases h3 : infoOkP R a.id
  · simp
  · cases h4 : versOkFlat R a.id
    · simp
    · simp [fetchScreenshotsDb_snd]

-- -------------------------------
-- Theorems: every collected screenshot row carries its own (app, store) scope
-- -------------------------------

theorem mem_collectSets_scope (R : Remote) (appId : String) (s : Nat)
    (locId locale plat : String) (sets : List SetData) (l : List ShotRow)
    (hc : collectSets R appId s locId locale plat sets = some l)
    (x : ShotRow) (hx : x ∈ l) : x.app_id = appId ∧ x.store_id = s := by
  induction sets generalizing l with
  | nil =>
    simp only [collectSets, Option.some_inj] at hc
    subst hc
    simp at hx
  | cons st rest ih =>
    simp only [collectSets] at hc
    cases hsh : R.shots st.id with
    | exn =>
      rw [hsh] at hc
      simp at hc
    | noData =>
      rw [hsh] at hc
      exact ih l hc hx
    | ok shl =>
      rw [hsh] at hc
      dsimp only at hc
      cases hrest : collectSets R appId s locId locale plat rest with
      | none =>
        rw [hrest] at hc
        simp at hc
      | some more =>
        rw [hrest] at hc
        simp only [Option.map_some', Option.some_inj] at hc
        subst hc
        rcases List.mem_append.mp hx with hm | hm
        · rcases List.mem_map.mp hm with ⟨sh, _, hmk⟩
          subst hmk
          exact ⟨rfl, rfl⟩
        · exact ih more hrest hm

theorem mem_collectLocaleShots_scope (R : Remote) (appId : String) (s : Nat)
    (loc : VersionLocData) (plat : String) (l : List ShotRow)
    (hc : collectLocaleShots R appId s loc plat = some l)
    (x : ShotRow) (hx : x ∈ l) : x.app_id = appId ∧ x.store_id = s := by
  simp only [collectLocaleShots] at hc
  cases hloc : loc.locale with
  | none =>
    rw [hloc] at hc
    simp at hc
  | some locale =>
    rw [hloc] at hc
    dsimp only at hc
    cases hst : R.shotSets loc.id with
    | exn =>
      rw [hst] at hc
      simp at hc
    | noData =>
      rw [hst] at hc
      simp only [Option.some_inj] at hc
      subst hc
      simp at hx
    | ok sets =>
      rw [hst] at hc
      exact mem_collectSets_scope R appId s loc.id locale plat sets l hc x hx

theorem mem_foldr_append {α β : Type} (f : β → List α) (ll : List β) (x : α)
    (hx : x ∈ ll.foldr (fun b acc => f b ++ acc) []) : ∃ b ∈ ll, x ∈ f b := by
  induction ll with
  | nil => simp at hx
  | cons b bs ih =>
    simp only [List.foldr_cons] at hx
    rcases List.mem_append.mp hx with hm | hm
    · exact ⟨b, List.mem_cons_self _ _, hm⟩
    · rcases ih hm with ⟨c, hc, hmem⟩
      exact ⟨c, List.mem_cons_of_mem _ hc, hmem⟩

theorem mem_collectVersions_scope (R : Remote) (appId : String) (s : Nat)
    (pf : Option String) (vl : List VersionData) (l : List ShotRow)
    (hc : collectVersions R appId s pf vl = some l)
    (x : ShotRow) (hx : x ∈ l) : x.app_id = appId ∧ x.store_id = s := by
  induction vl generalizing l with
  | nil =>
    simp only [collectVersions, Option.some_inj] at hc
    subst hc
    simp at hx
  | cons v vs ih =>
    simp only [collectVersions] at hc
    by_cases hskip : skipVersion pf (v.platform.getD "UNKNOWN") = true
    · rw [if_pos hskip] at hc
      exact ih l hc hx
    · rw [if_neg hskip] at hc
      cases hf : fetchVersionLocs R v.id with
      | exn =>
        rw [hf] at hc
        simp at hc
      | noData =>
        rw [hf] at hc
        exact ih l hc hx
      | ok ll =>
        rw [hf] at hc
        dsimp only at hc
        cases hrest : collectVersions R appId s pf vs with
        | none =>
          rw [hrest] at hc
          simp at hc
        | some more =>
          rw [hrest] at hc
          simp only [Option.map_some', Option.some_inj] at hc
          subst hc
          rcases List.mem_append.mp hx with hm | hm
          · rcases mem_foldr_append _ ll x hm with ⟨loc, _, hmem⟩
            cases hcl : collectLocaleShots R appId s loc (v.platform.getD "UNKNOWN") with
            | none =>
              rw [hcl] at hmem
              simp at hmem
            | some m =>
              rw [hcl] at hmem
              simp only [Option.getD_some] at hmem
              exact mem_collectLocaleShots_scope R appId s loc _ m hcl x hmem
          · exact ih more hrest hm

theorem collectAllShots_collected (R : Remote) (appId : String) (s : Nat)
    (pf : Option String) (l : List ShotRow)
    (h : collectAllShots R appId s pf = ScreenFetch.collected l) :
    ∃ vl, fetchVersions R appId pf = FR.ok vl ∧ collectVersions R appId s pf vl = some l := by
  simp only [collectAllShots] at h
  by_cases hj : R.jwtOk
  · rw [if_pos hj] at h
    cases hv : fetchVersions R appId pf with
    | exn =>
      rw [hv] at h
      simp at h
    | noData =>
      rw [hv] at h
      simp at h
    | ok vl =>
      rw [hv] at h
      dsimp only at h
      cases hcv : collectVersions R appId s pf vl with
      | none =>
        rw [hcv] at h
        simp at h
      | some shots =>
        rw [hcv] at h
        simp only [ScreenFetch.collected.injEq] at h
        subst h
        exact ⟨vl, rfl, hcv⟩
  · rw [if_neg hj] at h
    simp at h

theorem shotsNew_scope (R : Remote) (s : Nat) (appId : String) (x : ShotRow)
    (hx : x ∈ shotsNew R s appId) : x.app_id = appId ∧ x.store_id = s := by
  rw [shotsNew] at hx
  by_cases hg : (infoOkP R appId && versOkFlat R appId) = true
  · rw [if_pos hg] at hx
    rw [collectedShots] at hx
    cases h5 : collectAllShots R appId s none with
    | exn =>
      rw [h5] at hx
      simp at hx
    | noWrite =>
      rw [h5] at hx
      simp at hx
    | collected l =>
      rw [h5] at hx
      dsimp only at hx
      rcases collectAllShots_collected R appId s none l h5 with ⟨vl, _, hcv⟩
      exact mem_collectVersions_scope R appId s none vl l hcv x hx
  · rw [if_neg hg] at hx
    simp at hx

-- -------------------------------
-- Theorems: the per-app effects kill their own insertions
-- -------------------------------

theorem selfKill_effApps (s : Nat) (a : AppListing) : SelfKill (effApps s a) := by
  intro x hx
  simp only [effApps, List.mem_singleton] at hx
  subst hx
  simp [effApps, mkAppRow]

theorem selfKill_effInfo (R : Remote) (s : Nat) (a : AppListing) :
    SelfKill (effInfo R s a) := by
  intro x hx
  simp only [effInfo] at hx ⊢
  rcases mem_upsertFold _ _ _ _ hx with h | h
  · simp at h
  · have : (infoNewRows R s a.id).any
        (fun n => x.localization_id == n.localization_id) = true :=
      List.any_eq_true.mpr ⟨x, h, by simp⟩
    rw [this]
    simp

theorem selfKill_effVers (R : Remote) (s : Nat) (a : AppListing) :
    SelfKill (effVers R s a) := by
  intro x hx
  simp only [effVers] at hx ⊢
  rcases mem_upsertFold _ _ _ _ hx with h | h
  · simp at h
  · have : (versNewRows R s a.id).any (fun n => x.version_id == n.version_id) = true :=
      List.any_eq_true.mpr ⟨x, h, by simp⟩
    rw [this]
    simp

theorem selfKill_effVLocs (R : Remote) (s : Nat) (a : AppListing) :
    SelfKill (effVLocs R s a) := by
  intro x hx
  simp only [effVLocs] at hx ⊢
  rcases mem_upsertFold _ _ _ _ hx with h | h
  · simp at h
  · have : (vlocNewRows R s a.id).any
        (fun n => x.localization_id == n.localization_id) = true :=
      List.any_eq_true.mpr ⟨x, h, by simp⟩
    rw [this]
    simp

theorem selfKill_effScreens (R : Remote) (s : Nat) (a : AppListing) :
    SelfKill (effScreens R s a) := by
  intro x hx
  simp only [effScreens] at hx ⊢
  rcases mem_ignoreFold _ _ _ _ hx with h | h
  · simp at h
  · have hsc := shotsNew_scope R s a.id x h
    rw [hsc.1, hsc.2]
    simp

-- -------------------------------
-- Theorems: characterization of the fold over all listed apps
-- -------------------------------

theorem processAppsFold_apps (R : Remote) (s : Nat) (L : List AppListing)
    (db : DB) (n : Nat) :
    (processAppsFold R s L (db, n)).1.apps = (foldEff (effApps s) L).applyE db.apps := by
  induction L generalizing db n with
  | nil => simp [processAppsFold, foldEff, Eff.applyE_idE]
  | cons a as ih =>
    dsimp only [processAppsFold]
    rw [foldEff_cons_applyE, ← processApp_apps R s a db]
    exact ih _ _

theorem processAppsFold_info (R : Remote) (s : Nat) (L : List AppListing)
    (db : DB) (n : Nat) :
    (processAppsFold R s L (db, n)).1.app_info_localizations =
      (foldEff (effInfo R s) L).applyE db.app_info_localizations := by
  induction L generalizing db n with
  | nil => simp [processAppsFold, foldEff, Eff.applyE_idE]
  | cons a as ih =>
    dsimp only [processAppsFold]
    rw [foldEff_cons_applyE, ← processApp_info R s a db]
    exact ih _ _

theorem processAppsFold_vers (R : Remote) (s : Nat) (L : List AppListing)
    (db : DB) (n : Nat) :
    (processAppsFold R s L (db, n)).1.app_versions =
      (foldEff (effVers R s) L).applyE db.app_versions := by
  induction L generalizing db n with
  | nil => simp [processAppsFold, foldEff, Eff.applyE_idE]
  | cons a as ih =>
    dsimp only [processAppsFold]
    rw [foldEff_cons_applyE, ← processApp_vers R s a db]
    exact ih _ _

theorem processAppsFold_vlocs (R : Remote) (s : Nat) (L : List AppListing)
    (db : DB) (n : Nat) :
    (processAppsFold R s L (db, n)).1.app_version_localizations =
      (foldEff (effVLocs R s) L).applyE db.app_version_localizations := by
  induction L generalizing db n with
  | nil => simp [processAppsFold, foldEff, Eff.applyE_idE]
  | cons a as ih =>
    dsimp only [processAppsFold]
    rw [foldEff_cons_applyE, ← processApp_vlocs R s a db]
    exact ih _ _

theorem processAppsFold_cnt (R : Remote) (s : Nat) (L : List AppListing)
    (db : DB) (n : Nat) :
    (processAppsFold R s L (db, n)).2 =
      n + L.countP (fun a => processAppOkDef R s a.id) := by
  induction L generalizing db n with
  | nil => simp [processAppsFold]
  | cons a as ih =>
    dsimp only [processAppsFold]
    rw [ih, processApp_snd, List.countP_cons]
    cases hk : processAppOkDef R s a.id
    · simp [hk]
    · simp [hk]
      omega

/-- Screens-table characterization of the fold, under the id-disjointness
hypotheses about the remote's screenshots and the starting cache. -/
theorem processAppsFold_screens (R : Remote) (s : Nat) (L : List AppListing) :
    CAshots R s L →
    ∀ (db : DB) (n : Nat), PreShots R s L db.app_screenshots →
      (processAppsFold R s L (db, n)).1.app_screenshots =
        (foldEff (effScreens R s) L).applyE db.app_screenshots := by
  induction L with
  | nil =>
    intro _ db n _
    simp [processAppsFold, foldEff, Eff.applyE_idE]
  | cons a as ih =>
    intro hCA db n hPre
    dsimp only [processAppsFold]
    have hPa : (processApp R s a db).1.app_screenshots =
        (effScreens R s a).applyE db.app_screenshots := by
      apply processApp_screens
      intro t ht x hx hid
      exact hPre a (List.mem_cons_self _ _) t ht x hx hid
    have hCA' : CAshots R s as := by
      intro a' ha' b' hb' hne t ht u hu
      exact hCA a' (List.mem_cons_of_mem _ ha') b' (List.mem_cons_of_mem _ hb') hne t ht u hu
    have hPre' : PreShots R s as (processApp R s a db).1.app_screenshots := by
      rw [hPa]
      intro b hb t ht x hx hid
      dsimp only [Eff.applyE, effScreens] at hx
      rcases List.mem_append.mp hx with hm | hm
      · exact hPre b (List.mem_cons_of_mem _ hb) t ht x (List.mem_filter.mp hm).1 hid
      · rcases mem_ignoreFold _ _ _ _ hm with hn | hn
        · simp at hn
        · by_cases hab : a = b
          · subst hab
            exact shotsNew_scope R s a.id x hn
          · exfalso
            exact hCA a (List.mem_cons_self _ _) b (List.mem_cons_of_mem _ hb) hab
              x hn t ht hid
    rw [foldEff_cons_applyE, ← hPa]
    exact ih hCA' _ _ hPre'

/-- Applying a self-killing effect followed by a filter is idempotent: the
algebraic core of the refresh-twice argument. -/
theorem applyE_filter_idem {α : Type} (e : Eff α) (h : SelfKill e) (ck : α → Bool)
    (l : List α) :
    (e.applyE ((e.applyE l).filter ck)).filter ck = (e.applyE l).filter ck := by
  have hX : ((e.applyE l).filter ck).filter e.keep = (l.filter e.keep).filter ck := by
    rw [Eff.applyE, List.filter_append, List.filter_append]
    have h1 : (e.new.filter ck).filter e.keep = [] := by
      rw [List.filter_eq_nil_iff]
      intro x hx
      rw [h x (List.mem_filter.mp hx).1]
      simp
    have h2 : ((l.filter e.keep).filter ck).filter e.keep =
        (l.filter e.keep).filter ck := by
      rw [List.filter_eq_self]
      intro x hx
      exact (List.mem_filter.mp (List.mem_filter.mp hx).1).2
    rw [h1, h2, List.append_nil]
  show (((e.applyE l).filter ck).filter e.keep ++ e.new).filter ck = (e.applyE l).filter ck
  rw [List.filter_append, hX, filter_self_filter,
    show e.applyE l = l.filter e.keep ++ e.new from rfl, List.filter_append]

theorem DB.ext2 (a b : DB) (h1 : a.apps = b.apps)
    (h2 : a.app_info_localizations = b.app_info_localizations)
    (h3 : a.app_versions = b.app_versions)
    (h4 : a.app_version_localizations = b.app_version_localizations)
    (h5 : a.app_screenshots = b.app_screenshots) : a = b := by
  cases a
  cases b
  simp only [DB.mk.injEq]
  exact ⟨h1, h2, h3, h4, h5⟩

theorem fetchAndStoreApps_eq (R : Remote) (s : Nat) (db : DB) (L : List AppListing)
    (hL : fetchAllApps R = FR.ok L) (hne : L ≠ []) :
    fetchAndStoreApps R s db =
      (cleanupStore s (L.map (fun a => a.id)) (processAppsFold R s L (db, 0)).1,
        some (decide (0 < (processAppsFold R s L (db, 0)).2))) := by
  simp only [fetchAndStoreApps]
  rw [hL]
  cases L with
  | nil => exact absurd rfl hne
  | cons a as => rfl

/-- A full refresh preserves the screenshot-id precondition: the only rows it
adds are fetched screenshots, which live in their own app's scope. -/
theorem preShots_refresh (R : Remote) (s : Nat) (db : DB) (L : List AppListing)
    (hL : fetchAllApps R = FR.ok L) (hne : L ≠ [])
    (hCA : CAshots R s L) (hPre : PreShots R s L db.app_screenshots) :
    PreShots R s L (fetchAndStoreApps R s db).1.app_screenshots := by
  have e1 : (fetchAndStoreApps R s db).1 =
      cleanupStore s (L.map (fun a => a.id)) (processAppsFold R s L (db, 0)).1 := by
    rw [fetchAndStoreApps_eq R s db L hL hne]
  rw [e1]
  intro a ha t ht x hx hid
  dsimp only [cleanupStore] at hx
  have hx1 : x ∈ (processAppsFold R s L (db, 0)).1.app_screenshots :=
    (List.mem_filter.mp hx).1
  rw [processAppsFold_screens R s L hCA db 0 hPre] at hx1
  dsimp only [Eff.applyE] at hx1
  rcases List.mem_append.mp hx1 with hm | hm
  · exact hPre a ha t ht x (List.mem_filter.mp hm).1 hid
  · rcases mem_foldEff_new _ _ _ hm with ⟨b, hb, hnb⟩
    dsimp only [effScreens] at hnb
    rcases mem_ignoreFold _ _ _ _ hnb with hn | hn
    · simp at hn
    · by_cases hab : a = b
      · subst hab
        exact shotsNew_scope R s a.id x hn
      · exfalso
        exact hCA b hb a ha (fun h2 => hab h2.symm) x hn t ht hid

/-- Running the full-store refresh twice against a fixed remote yields the
same cache as running it once, provided the remote's screenshot ids neither
collide across listed apps nor coincide with cached screenshot rows of a
different scope. -/
theorem fetchAndStoreApps_idem (R : Remote) (s : Nat) (db : DB) (L : List AppListing)
    (hL : fetchAllApps R = FR.ok L)
    (hCA : CAshots R s L)
    (hPre : PreShots R s L db.app_screenshots) :
    (fetchAndStoreApps R s (fetchAndStoreApps R s db).1).1 = (fetchAndStoreApps R s db).1 := by
  by_cases hne : L = []
  · subst hne
    have h1 : fetchAndStoreApps R s db = (db, some false) := by
      simp [fetchAndStoreApps, hL]
    rw [h1]
    have h2 : fetchAndStoreApps R s db = (db, some false) := h1
    simp [fetchAndStoreApps, hL]
  · have hPre2 : PreShots R s L (fetchAndStoreApps R s db).1.app_screenshots :=
      preShots_refresh R s db L hL hne hCA hPre
    have e1 : (fetchAndStoreApps R s db).1 =
        cleanupStore s (L.map (fun a => a.id)) (processAppsFold R s L (db, 0)).1 := by
      rw [fetchAndStoreApps_eq R s db L hL hne]
    rw [e1] at hPre2
    rw [e1]
    have e2 : (fetchAndStoreApps R s
        (cleanupStore s (L.map (fun a => a.id)) (processAppsFold R s L (db, 0)).1)).1 =
        cleanupStore s (L.map (fun a => a.id))
          (processAppsFold R s L
            (cleanupStore s (L.map (fun a => a.id)) (processAppsFold R s L (db, 0)).1, 0)).1 := by
      rw [fetchAndStoreApps_eq R s _ L hL hne]
    rw [e2]
    dsimp only [cleanupStore] at hPre2
    apply DB.ext2
    · dsimp only [cleanupStore]
      rw [processAppsFold_apps, processAppsFold_apps]
      dsimp only
      exact applyE_filter_idem _
        (selfKill_foldEff _ L (fun b _ => selfKill_effApps s b)) _ db.apps
    · dsimp only [cleanupStore]
      rw [processAppsFold_info, processAppsFold_info]
      dsimp only
      exact applyE_filter_idem _
        (selfKill_foldEff _ L (fun b _ => selfKill_effInfo R s b)) _ db.app_info_localizations
    · dsimp only [cleanupStore]
      rw [processAppsFold_vers, processAppsFold_vers]
      dsimp only
      exact applyE_filter_idem _
        (selfKill_foldEff _ L (fun b _ => selfKill_effVers R s b)) _ db.app_versions
    · dsimp only [cleanupStore]
      rw [processAppsFold_vlocs, processAppsFold_vlocs]
      dsimp only
      exact applyE_filter_idem _
        (selfKill_foldEff _ L (fun b _ => selfKill_effVLocs R s b)) _ db.app_version_localizations
    · dsimp only [cleanupStore]
      rw [processAppsFold_screens R s L hCA _ 0 hPre2,
        processAppsFold_screens R s L hCA db 0 hPre]
      dsimp only
      exact applyE_filter_idem _
        (selfKill_foldEff _ L (fun b _ => selfKill_effScreens R s b)) _ db.app_screenshots

-- -------------------------------
-- Theorems: frame property of the platform-scoped attribute refresh
-- -------------------------------

theorem filter_upsertBy {α : Type} (key : α → String) (row : α) (l : List α) (p : α → Bool)
    (hrow : p row = false)
    (hkey : ∀ r ∈ l, (key r == key row) = true → p r = false) :
    (upsertBy key row l).filter p = l.filter p := by
  rw [upsertBy, List.filter_append]
  have h1 : (l.filter (fun x => !(key x == key row))).filter p = l.filter p := by
    apply filter_filter_of_imp
    intro r hr hq
    apply hkey r hr
    revert hq
    cases key r == key row <;> simp
  have h2 : [row].filter p = [] := by
    simp [hrow]
  rw [h1, h2, List.append_nil]

theorem filter_upsertFold {α : Type} (key : α → String) (rows l : List α) (p : α → Bool)
    (hrow : ∀ x ∈ rows, p x = false)
    (hkey : ∀ r ∈ l, ∀ x ∈ rows, (key r == key x) = true → p r = false) :
    (upsertFold key rows l).filter p = l.filter p := by
  rw [upsertFold_char, List.filter_append]
  have h2 : (upsertFold key rows []).filter p = [] := by
    rw [List.filter_eq_nil_iff]
    intro x hx
    rcases mem_upsertFold _ _ _ _ hx with h | h
    · simp at h
    · simp [hrow x h]
  have h1 : (l.filter (fun x => !(rows.any fun r => key x == key r))).filter p =
      l.filter p := by
    apply filter_filter_of_imp
    intro r hr hq
    have hany : rows.any (fun x => key r == key x) = true := by
      revert hq
      cases rows.any (fun x => key r == key x) <;> simp
    rcases List.any_eq_true.mp hany with ⟨x, hxmem, hbeq⟩
    exact hkey r hr x hxmem hbeq
  rw [h1, h2, List.append_nil]

/-- Frame property of the `sync_attribute_data` version loop: whatever the per
version fetches do (including exceptions with their rollback to the last
committed state), only rows inside the (app, store, platform) scope are ever
touched, provided the remote honours the platform filter and remote ids only
collide with rows of that same scope. -/
theorem syncVersionLoop_frame (R : Remote) (appId : String) (s : Nat) (p : String)
    (vl : List VersionData) :
    ∀ (committed current : DB) (success : Bool),
    (∀ v ∈ vl, v.platform = some p) →
    (∀ v ∈ vl, ∀ r ∈ current.app_versions, r.version_id = v.id →
        inVersScope appId s (some p) r = true) →
    (∀ v ∈ vl, ∀ ld ∈ versionLocsOf R v.id,
        ∀ r ∈ current.app_version_localizations, r.localization_id = ld.id →
        inVLocScope appId s (some p) r = true) →
    committed.apps = current.apps →
    committed.app_info_localizations = current.app_info_localizations →
    committed.app_screenshots = current.app_screenshots →
    committed.app_versions.filter (fun r => !(inVersScope appId s (some p) r)) =
      current.app_versions.filter (fun r => !(inVersScope appId s (some p) r)) →
    committed.app_version_localizations.filter (fun r => !(inVLocScope appId s (some p) r)) =
      current.app_version_localizations.filter (fun r => !(inVLocScope appId s (some p) r)) →
    ((syncVersionLoop R appId s vl committed current success).1.apps = current.apps ∧
     (syncVersionLoop R appId s vl committed current success).1.app_info_localizations =
       current.app_info_localizations ∧
     (syncVersionLoop R appId s vl committed current success).1.app_screenshots =
       current.app_screenshots ∧
     (syncVersionLoop R appId s vl committed current success).1.app_versions.filter
         (fun r => !(inVersScope appId s (some p) r)) =
       current.app_versions.filter (fun r => !(inVersScope appId s (some p) r)) ∧
     (syncVersionLoop R appId s vl committed current success).1.app_version_localizations.filter
         (fun r => !(inVLocScope appId s (some p) r)) =
       current.app_version_localizations.filter (fun r => !(inVLocScope appId s (some p) r))) := by
  induction vl with
  | nil =>
    intro committed current success _ _ _ _ _ _ _ _
    exact ⟨rfl, rfl, rfl, rfl, rfl⟩
  | cons v vs ih =>
    intro committed current success hplat hkeyV hkeyL hA hI hS hV hL
    have hvp : v.platform = some p := hplat v (List.mem_cons_self _ _)
    have hrowscope : inVersScope appId s (some p) (mkVersionRowS appId s v) = true := by
      simp [inVersScope, mkVersionRowS, hvp, platformMatches]
    have hcur1V : (upsertBy VersionRow.version_id (mkVersionRowS appId s v)
          current.app_versions).filter (fun r => !(inVersScope appId s (some p) r)) =
        current.app_versions.filter (fun r => !(inVersScope appId s (some p) r)) := by
      apply filter_upsertBy
      · rw [hrowscope]
        rfl
      · intro r hr hb
        have : r.version_id = v.id := by
          have := eq_of_beq hb
          simpa [mkVersionRowS] using this
        rw [hkeyV v (List.mem_cons_self _ _) r hr this]
        rfl
    simp only [syncVersionLoop]
    cases hf : fetchVersionLocs R v.id with
    | exn =>
      exact ⟨hA, hI, hS, hV, hL⟩
    | noData =>
      dsimp only
      have := ih committed
        { current with app_versions :=
            (upsertBy VersionRow.version_id (mkVersionRowS appId s v) current.app_versions) }
        false
        (fun w hw => hplat w (List.mem_cons_of_mem _ hw))
        (by
          intro w hw r hr hid
          have hr2 : r ∈ upsertBy VersionRow.version_id (mkVersionRowS appId s v)
              current.app_versions := hr
          rw [upsertBy] at hr2
          rcases List.mem_append.mp hr2 with hm | hm
          · exact hkeyV w (List.mem_cons_of_mem _ hw) r (List.mem_filter.mp hm).1 hid
          · simp only [List.mem_singleton] at hm
            subst hm
            exact hrowscope)
        (fun w hw => hkeyL w (List.mem_cons_of_mem _ hw))
        hA hI hS (hV.trans hcur1V.symm) hL
      rcases this with ⟨c1, c2, c3, c4, c5⟩
      exact ⟨c1, c2, c3, c4.trans hcur1V, c5⟩
    | ok ll =>
      dsimp only
      have hll : versionLocsOf R v.id = ll := by
        simp [versionLocsOf, hf]
      have hlocrows : ∀ x ∈ ll.map (mkVLocRowS appId s v.id v.platform),
          (fun r => !(inVLocScope appId s (some p) r)) x = false := by
        intro x hx
        rcases List.mem_map.mp hx with ⟨ld, _, hmk⟩
        subst hmk
        simp [inVLocScope, mkVLocRowS, hvp, platformMatches]
      have hcur2L : (upsertFold VersionLocRow.localization_id
            (ll.map (mkVLocRowS appId s v.id v.platform))
            current.app_version_localizations).filter
              (fun r => !(inVLocScope appId s (some p) r)) =
          current.app_version_localizations.filter
            (fun r => !(inVLocScope appId s (some p) r)) := by
        apply filter_upsertFold
        · exact hlocrows
        · intro r hr x hx hb
          rcases List.mem_map.mp hx with ⟨ld, hld, hmk⟩
          subst hmk
          have hid : r.localization_id = ld.id := by
            have := eq_of_beq hb
            simpa [mkVLocRowS] using this
          rw [hkeyL v (List.mem_cons_self _ _) ld (hll ▸ hld) r hr hid]
          rfl
      set cur2 : DB :=
        { current with
          app_versions :=
            (upsertBy VersionRow.version_id (mkVersionRowS appId s v) current.app_versions),
          app_version_localizations :=
            (upsertFold VersionLocRow.localization_id
              (ll.map (mkVLocRowS appId s v.id v.platform))
              current.app_version_localizations) } with hcur2
      have := ih cur2 cur2 success
        (fun w hw => hplat w (List.mem_cons_of_mem _ hw))
        (by
          intro w hw r hr hid
          have hr2 : r ∈ upsertBy VersionRow.version_id (mkVersionRowS appId s v)
              current.app_versions := hr
          rw [upsertBy] at hr2
          rcases List.mem_append.mp hr2 with hm | hm
          · exact hkeyV w (List.mem_cons_of_mem _ hw) r (List.mem_filter.mp hm).1 hid
          · simp only [List.mem_singleton] at hm
            subst hm
            exact hrowscope)
        (by
          intro w hw ld hld r hr hid
          have hr2 : r ∈ upsertFold VersionLocRow.localization_id
              (ll.map (mkVLocRowS appId s v.id v.platform))
              current.app_version_localizations := hr
          rcases mem_upsertFold _ _ _ _ hr2 with hm | hm
          · exact hkeyL w (List.mem_cons_of_mem _ hw) ld hld r hm hid
          · have hx := hlocrows r hm
            simp only at hx
            revert hx
            cases h2 : inVLocScope appId s (some p) r
            · intro hx
              simp at hx
            · intro _
              rfl)
        rfl rfl rfl rfl rfl
      rcases this with ⟨c1, c2, c3, c4, c5⟩
      refine ⟨c1.trans ?_, c2.trans ?_, c3.trans ?_, ?_, ?_⟩
      · rw [hcur2]
      · rw [hcur2]
      · rw [hcur2]
      · rw [c4, hcur2]
        exact hcur1V
      · rw [c5, hcur2]
        exact hcur2L

theorem not_info_of_version (attr : String) (h : versionAttrs.contains attr = true) :
    infoAttrs.contains attr = false := by
  have hm : attr ∈ versionAttrs := by simpa using h
  simp only [versionAttrs, List.mem_cons, List.not_mem_nil, or_false] at hm
  rcases hm with h1 | h1 | h1 | h1 | h1 | h1 <;> subst h1 <;> rfl

/-- Frame property of a platform-scoped version-attribute refresh: only the
app_versions and app_version_localizations rows of the (app, store, platform)
scope are deleted or rewritten; everything else — including every row of the
other platform, other apps, and the app_info_localizations table — is
untouched, under the environment assumptions that the remote honours the
platform filter and that remote ids only collide with rows of that scope. -/
theorem syncAttributeData_version_frame (R : Remote) (attr appId : String) (s : Nat)
    (p : String) (db : DB)
    (hattr : versionAttrs.contains attr = true)
    (hplat : ∀ v ∈ versionsOf R appId (some p), v.platform = some p)
    (hkeyV : ∀ v ∈ versionsOf R appId (some p), ∀ r ∈ db.app_versions,
        r.version_id = v.id → inVersScope appId s (some p) r = true)
    (hkeyL : ∀ v ∈ versionsOf R appId (some p), ∀ ld ∈ versionLocsOf R v.id,
        ∀ r ∈ db.app_version_localizations, r.localization_id = ld.id →
        inVLocScope appId s (some p) r = true) :
    (syncAttributeData R attr appId s (some p) db).1.apps = db.apps ∧
    (syncAttributeData R attr appId s (some p) db).1.app_info_localizations =
      db.app_info_localizations ∧
    (syncAttributeData R attr appId s (some p) db).1.app_screenshots =
      db.app_screenshots ∧
    (syncAttributeData R attr appId s (some p) db).1.app_versions.filter
        (fun r => !(inVersScope appId s (some p) r)) =
      db.app_versions.filter (fun r => !(inVersScope appId s (some p) r)) ∧
    (syncAttributeData R attr appId s (some p) db).1.app_version_localizations.filter
        (fun r => !(inVLocScope appId s (some p) r)) =
      db.app_version_localizations.filter (fun r => !(inVLocScope appId s (some p) r)) := by
  have hinfo := not_info_of_version attr hattr
  simp only [syncAttributeData, hinfo, hattr, Bool.false_eq_true, if_false, if_true]
  cases hv : fetchVersions R appId (some p) with
  | exn =>
    exact ⟨rfl, rfl, rfl, filter_self_filter _ _, filter_self_filter _ _⟩
  | noData =>
    exact ⟨rfl, rfl, rfl, filter_self_filter _ _, filter_self_filter _ _⟩
  | ok vl =>
    dsimp only
    have hvOf : versionsOf R appId (some p) = vl := by
      simp [versionsOf, hv]
    rw [hvOf] at hplat hkeyV hkeyL
    have main := syncVersionLoop_frame R appId s p vl
      { db with
        app_version_localizations := db.app_version_localizations.filter
          (fun r => !(inVLocScope appId s (some p) r)),
        app_versions := db.app_versions.filter
          (fun r => !(inVersScope appId s (some p) r)) }
      { db with
        app_version_localizations := db.app_version_localizations.filter
          (fun r => !(inVLocScope appId s (some p) r)),
        app_versions := db.app_versions.filter
          (fun r => !(inVersScope appId s (some p) r)) }
      true hplat
      (by
        intro w hw r hr hid
        exact hkeyV w hw r (List.mem_filter.mp hr).1 hid)
      (by
        intro w hw ld hld r hr hid
        exact hkeyL w hw ld hld r (List.mem_filter.mp hr).1 hid)
      rfl rfl rfl rfl rfl
    rcases main with ⟨c1, c2, c3, c4, c5⟩
    refine ⟨c1, c2, c3, ?_, ?_⟩
    · rw [c4]
      exact filter_self_filter _ _
    · rw [c5]
      exact filter_self_filter _ _

-- -------------------------------
-- Theorems: one failing app does not abort the rest
-- -------------------------------

theorem processApp_present (R : Remote) (s : Nat) (b : AppListing) (db : DB) (x : String)
    (h : ∃ r ∈ db.apps, r.app_id = x ∧ r.store_id = s) :
    ∃ r ∈ (processApp R s b db).1.apps, r.app_id = x ∧ r.store_id = s := by
  rw [processApp_apps]
  dsimp only [effApps, Eff.applyE]
  rcases h with ⟨r, hr, hid, hs⟩
  by_cases hb : x = b.id
  · refine ⟨mkAppRow s b, List.mem_append.mpr (Or.inr (List.mem_singleton.mpr rfl)), ?_, rfl⟩
    simp [mkAppRow, hb]
  · refine ⟨r, List.mem_append.mpr (Or.inl ?_), hid, hs⟩
    rw [List.mem_filter]
    refine ⟨hr, ?_⟩
    simp only [hid, Bool.not_eq_true', beq_eq_false_iff_ne]
    exact hb

theorem processApp_self_present (R : Remote) (s : Nat) (b : AppListing) (db : DB) :
    ∃ r ∈ (processApp R s b db).1.apps, r.app_id = b.id ∧ r.store_id = s := by
  rw [processApp_apps]
  dsimp only [effApps, Eff.applyE]
  exact ⟨mkAppRow s b, List.mem_append.mpr (Or.inr (List.mem_singleton.mpr rfl)), rfl, rfl⟩

theorem processAppsFold_present (R : Remote) (s : Nat) (L : List AppListing) :
    ∀ (db : DB) (n : Nat) (x : String),
    (∃ r ∈ db.apps, r.app_id = x ∧ r.store_id = s) →
    ∃ r ∈ (processAppsFold R s L (db, n)).1.apps, r.app_id = x ∧ r.store_id = s := by
  induction L with
  | nil =>
    intro db n x h
    exact h
  | cons a as ih =>
    intro db n x h
    dsimp only [processAppsFold]
    exact ih _ _ x (processApp_present R s a db x h)

theorem processAppsFold_establish (R : Remote) (s : Nat) (L : List AppListing) :
    ∀ (db : DB) (n : Nat) (a : AppListing), a ∈ L →
    ∃ r ∈ (processAppsFold R s L (db, n)).1.apps, r.app_id = a.id ∧ r.store_id = s := by
  induction L with
  | nil =>
    intro db n a h
    simp at h
  | cons b bs ih =>
    intro db n a ha
    dsimp only [processAppsFold]
    rcases List.mem_cons.mp ha with h | h
    · subst h
      exact processAppsFold_present R s bs _ _ a.id (processApp_self_present R s a db)
    · exact ih _ _ a h

theorem fetchAndStoreApps_report (R : Remote) (s : Nat) (db : DB) (L : List AppListing)
    (hL : fetchAllApps R = FR.ok L) :
    ((fetchAndStoreApps R s db).2 = some true ↔
      ∃ a ∈ L, processAppOkDef R s a.id = true) ∧
    (∀ a ∈ L, ∃ r ∈ (fetchAndStoreApps R s db).1.apps,
      r.app_id = a.id ∧ r.store_id = s) := by
  by_cases hne : L = []
  · subst hne
    have h1 : fetchAndStoreApps R s db = (db, some false) := by
      simp [fetchAndStoreApps, hL]
    rw [h1]
    constructor
    · simp
    · intro a ha
      simp at ha
  · rw [fetchAndStoreApps_eq R s db L hL hne]
    constructor
    · rw [processAppsFold_cnt]
      simp only [Nat.zero_add, Option.some_inj, decide_eq_true_eq]
      rw [List.countP_pos_iff]
    · intro a ha
      rcases processAppsFold_establish R s L db 0 a ha with ⟨r, hr, hid, hs⟩
      refine ⟨r, ?_, hid, hs⟩
      dsimp only [cleanupStore]
      rw [List.mem_filter]
      refine ⟨hr, ?_⟩
      have hc : (L.map (fun a => a.id)).contains r.app_id = true := by
        rw [hid]
        simpa using List.mem_map_of_mem (fun a => a.id) ha
      simp only [hs, hc]
      simp

-- -------------------------------
-- Theorems: the save loop over the changed locales
-- -------------------------------

theorem runPatches_false (R : Remote) (useInfo : Bool) (attr : String)
    (changes : List (String × Option String)) :
    runPatches R useInfo attr changes false ≠ some true := by
  induction changes with
  | nil => simp [runPatches]
  | cons c rest ih =>
    simp only [runPatches]
    cases patchOutcome R useInfo c.1 [(attr, c.2)] with
    | none => simp
    | some b =>
      dsimp only
      rw [Bool.false_and]
      exact ih

theorem runPatches_failing (R : Remote) (useInfo : Bool) (attr : String)
    (changes : List (String × Option String)) :
    (∃ c ∈ changes, patchOutcome R useInfo c.1 [(attr, c.2)] ≠ some true) →
    ∀ acc : Bool, runPatches R useInfo attr changes acc ≠ some true := by
  induction changes with
  | nil =>
    intro h
    rcases h with ⟨c, hc, _⟩
    simp at hc
  | cons c rest ih =>
    intro h acc
    simp only [runPatches]
    cases hp : patchOutcome R useInfo c.1 [(attr, c.2)] with
    | none => simp
    | some b =>
      dsimp only
      rcases h with ⟨d, hd, hne⟩
      rcases List.mem_cons.mp hd with h1 | h1
      · subst h1
        rw [hp] at hne
        have hb : b = false := by
          revert hne
          cases b
          · intro _
            rfl
          · intro hne
            exact absurd rfl hne
        rw [hb, Bool.and_false]
        exact runPatches_false R useInfo attr rest
      · exact ih ⟨d, h1, hne⟩ _

theorem keep_imp_mem (ids : List String) (s sid : Nat) (aid : String)
    (h : (!(sid == s && !(ids.contains aid))) = true) (hs : sid = s) : aid ∈ ids := by
  subst hs
  simp only [beq_self_eq_true, Bool.true_and, Bool.not_not] at h
  simpa using h

-- -------------------------------
-- Claim theorems
-- -------------------------------

/-- C1: on the save path, if any remote patch in the batch fails or is
rejected, the local cache is left exactly as it was (the user's edited value
is never written into it), the save does not report success, and
`sync_attribute_data` is not invoked. -/
theorem claim_C1_no_cache_write_on_failed_patch (R : Remote) (attr : String)
    (changes : List (String × Option String)) (appId : String) (s : Nat)
    (pf : Option String) (db : DB)
    (h : ∃ c ∈ changes,
      patchOutcome R (infoAttrs.contains attr) c.1 [(attr, c.2)] ≠ some true) :
    (saveChanges R attr changes appId s pf db).1 = db ∧
    (saveChanges R attr changes appId s pf db).2.1 ≠ SaveOutcome.saved ∧
    (saveChanges R attr changes appId s pf db).2.2 = false := by
  have hrp := runPatches_failing R (infoAttrs.contains attr) attr changes h true
  simp only [saveChanges]
  cases hr : runPatches R (infoAttrs.contains attr) attr changes true with
  | none => exact ⟨rfl, by simp, rfl⟩
  | some b =>
    cases b with
    | false => exact ⟨rfl, by simp, rfl⟩
    | true => exact absurd hr hrp

/-- C1 witness: a batch whose first patch is rejected leaves the cache
untouched and skips the reconcile. -/
theorem claim_C1_witness :
    (∃ c ∈ [(("L1" : String), some ("v" : String))],
      patchOutcome remoteC1 (infoAttrs.contains "name") c.1 [("name", c.2)] ≠ some true) ∧
    ((saveChanges remoteC1 "name" [("L1", some "v")] "A" 1 none dbC2).1 = dbC2 ∧
     (saveChanges remoteC1 "name" [("L1", some "v")] "A" 1 none dbC2).2.1 ≠ SaveOutcome.saved ∧
     (saveChanges remoteC1 "name" [("L1", some "v")] "A" 1 none dbC2).2.2 = false) :=
  ⟨by decide,
   claim_C1_no_cache_write_on_failed_patch remoteC1 "name" [("L1", some "v")] "A" 1 none dbC2
     (by decide)⟩

/-- C2 counterexample: with one app-info localization cached and a remote
whose re-fetch returns no data, the single-attribute refresh reports failure
but the previously cached row is gone — the delete ran before the fetch, so
the prior cache contents are not left in place as the claim states. -/
theorem claim_C2_counterexample :
    dbC2.app_info_localizations ≠ [] ∧
    (syncAttributeData remoteC2 "name" "A" 1 none dbC2).2 = some false ∧
    (syncAttributeData remoteC2 "name" "A" 1 none dbC2).1.app_info_localizations = [] := by
  decide

/-- C2 (amended): in a single-attribute refresh the cached scope is deleted
before the replacement data is fetched; when the fetch fails the scope is left
empty (not unchanged) and the refresh returns False, and a per-app refresh
likewise deletes the app-info scope before its failed fetch. -/
theorem claim_C2_amended :
    (∀ (R : Remote) (attr appId : String) (s : Nat) (pf : Option String) (db : DB),
      infoAttrs.contains attr = true → fetchAppInfo R appId = FR.noData →
      syncAttributeData R attr appId s pf db =
        ({ db with app_info_localizations := (db.app_info_localizations.filter
            (fun r => !(r.app_id == appId && r.store_id == s))) }, some false)) ∧
    (∀ (R : Remote) (attr appId : String) (s : Nat) (pf : Option String) (db : DB),
      versionAttrs.contains attr = true → fetchVersions R appId pf = FR.noData →
      syncAttributeData R attr appId s pf db =
        ({ db with
            app_version_localizations := db.app_version_localizations.filter
              (fun r => !(inVLocScope appId s pf r)),
            app_versions := db.app_versions.filter
              (fun r => !(inVersScope appId s pf r)) }, some false)) ∧
    (∀ (R : Remote) (s : Nat) (a : AppListing) (db : DB),
      fetchAppInfo R a.id = FR.noData →
      (processApp R s a db).1.app_info_localizations =
        db.app_info_localizations.filter
          (fun r => !(r.app_id == a.id && r.store_id == s))) := by
  refine ⟨?_, ?_, ?_⟩
  · intro R attr appId s pf db h1 h2
    simp only [syncAttributeData, h1, if_true]
    rw [h2]
  · intro R attr appId s pf db h1 h2
    have hinfo := not_info_of_version attr h1
    simp only [syncAttributeData, hinfo, Bool.false_eq_true, if_false, h1, if_true]
    rw [h2]
  · intro R s a db h
    rw [processApp_info]
    dsimp only [effInfo, Eff.applyE]
    have hn : infoNewRows R s a.id = [] := by
      simp [infoNewRows, h]
    rw [hn]
    simp [upsertFold_nil]

/-- C2 witness: the amended behaviour at a concrete failing remote. -/
theorem claim_C2_witness :
    (infoAttrs.contains "name" = true ∧ fetchAppInfo remoteC2 "A" = FR.noData) ∧
    syncAttributeData remoteC2 "name" "A" 1 none dbC2 =
      ({ dbC2 with app_info_localizations := (dbC2.app_info_localizations.filter
          (fun r => !(r.app_id == "A" && r.store_id == 1))) }, some false) :=
  ⟨⟨by decide, by decide⟩,
   claim_C2_amended.1 remoteC2 "name" "A" 1 none dbC2 (by decide) (by decide)⟩

/-- C3 counterexample: when the remote listing is empty the refresh returns
early without the tombstone cleanup, so a cached row whose app_id is outside
the listing survives, contrary to the claim's universal statement. -/
theorem claim_C3_counterexample :
    fetchAllApps remoteC3 = FR.ok [] ∧
    (fetchAndStoreApps remoteC3 1 dbC3).1 = dbC3 ∧
    (∃ r ∈ (fetchAndStoreApps remoteC3 1 dbC3).1.apps, r.store_id = 1 ∧
      r.app_id ∉ ([] : List AppListing).map (fun a => a.id)) := by
  decide

/-- C3 (amended): after a full-store refresh over a non-empty remote listing
L, no app-scoped table holds a row of this store whose app_id is outside L:
the cleanup runs once, after all per-app processing, with the complete id
set. -/
theorem claim_C3_amended (R : Remote) (s : Nat) (db : DB) (L : List AppListing)
    (hL : fetchAllApps R = FR.ok L) (hne : L ≠ []) :
    (∀ r ∈ (fetchAndStoreApps R s db).1.apps, r.store_id = s →
      r.app_id ∈ L.map (fun a => a.id)) ∧
    (∀ r ∈ (fetchAndStoreApps R s db).1.app_info_localizations, r.store_id = s →
      r.app_id ∈ L.map (fun a => a.id)) ∧
    (∀ r ∈ (fetchAndStoreApps R s db).1.app_versions, r.store_id = s →
      r.app_id ∈ L.map (fun a => a.id)) ∧
    (∀ r ∈ (fetchAndStoreApps R s db).1.app_version_localizations, r.store_id = s →
      r.app_id ∈ L.map (fun a => a.id)) ∧
    (∀ r ∈ (fetchAndStoreApps R s db).1.app_screenshots, r.store_id = s →
      r.app_id ∈ L.map (fun a => a.id)) := by
  rw [fetchAndStoreApps_eq R s db L hL hne]
  refine ⟨?_, ?_, ?_, ?_, ?_⟩ <;>
    · intro r hr hs
      exact keep_imp_mem _ s _ _ (List.mem_filter.mp hr).2 hs

/-- C3 witness: a one-app listing leaves only that app's rows in the store. -/
theorem claim_C3_witness :
    (fetchAllApps remoteC3w = FR.ok [⟨"A", some "Widget"⟩] ∧
      ([⟨"A", some "Widget"⟩] : List AppListing) ≠ []) ∧
    (∀ r ∈ (fetchAndStoreApps remoteC3w 1 dbC3).1.apps, r.store_id = 1 →
      r.app_id ∈ ([⟨"A", some "Widget"⟩] : List AppListing).map (fun a => a.id)) :=
  ⟨⟨by decide, by decide⟩,
   (claim_C3_amended remoteC3w 1 dbC3 [⟨"A", some "Widget"⟩] (by decide) (by decide)).1⟩

/-- C4 counterexample: with a stale cached screenshot row carrying the same id
as a remotely served screenshot of a different app, running the full-store
refresh twice does not reproduce the cache of the first run — the
`INSERT OR IGNORE` suppresses the insert in the first run (the stale row still
exists at that point) but not in the second. -/
theorem claim_C4_counterexample :
    (fetchAndStoreApps remoteC4 1 (fetchAndStoreApps remoteC4 1 dbC4).1).1 ≠
      (fetchAndStoreApps remoteC4 1 dbC4).1 := by
  decide

/-- C4 (amended): the full-store refresh is idempotent — the second of two
back-to-back runs against a fixed remote reproduces the first run's cache
exactly — provided the remote's screenshot ids do not collide across distinct
listed apps and do not coincide with cached screenshot rows outside their own
app's (app, store) scope. -/
theorem claim_C4_amended (R : Remote) (s : Nat) (db : DB) (L : List AppListing)
    (hL : fetchAllApps R = FR.ok L)
    (hCA : CAshots R s L)
    (hPre : PreShots R s L db.app_screenshots) :
    (fetchAndStoreApps R s (fetchAndStoreApps R s db).1).1 = (fetchAndStoreApps R s db).1 :=
  fetchAndStoreApps_idem R s db L hL hCA hPre

/-- C4 witness: the amended idempotence at a concrete remote and cache. -/
theorem claim_C4_witness :
    (fetchAllApps remoteC4 = FR.ok [⟨"A", some "AppA"⟩, ⟨"B", some "AppB"⟩] ∧
      CAshots remoteC4 1 [⟨"A", some "AppA"⟩, ⟨"B", some "AppB"⟩] ∧
      PreShots remoteC4 1 [⟨"A", some "AppA"⟩, ⟨"B", some "AppB"⟩]
        emptyDB.app_screenshots) ∧
    (fetchAndStoreApps remoteC4 1 (fetchAndStoreApps remoteC4 1 emptyDB).1).1 =
      (fetchAndStoreApps remoteC4 1 emptyDB).1 :=
  ⟨⟨by decide, by decide, by decide⟩,
   claim_C4_amended remoteC4 1 emptyDB [⟨"A", some "AppA"⟩, ⟨"B", some "AppB"⟩]
     (by decide) (by decide) (by decide)⟩

/-- C5 counterexample: restore with a zero-byte (corrupted) downloaded blob
overwrites the working local cache file; no backup copy exists afterwards and
no integrity probe saved the old file, contrary to the claim. -/
theorem claim_C5_counterexample :
    fsC5.dbFile = some goodFile ∧
    corruptBlob.bytes = [] ∧
    corruptBlob.sqliteOk = false ∧
    loadDbFromGithub (GHGetRes.found true corruptBlob) fsC5 =
      { dbFile := some corruptBlob, backupFile := none } := by
  decide

/-- C5 (amended): `load_db_from_github` writes the downloaded blob (whether
obtained via download_url or the base64 fallback) straight over the local
cache file, making no backup copy and running no integrity probe; only a
non-200 listing response leaves the local file untouched. -/
theorem claim_C5_amended :
    (∀ (fs : FS) (u : Bool) (blob : GFile),
      loadDbFromGithub (GHGetRes.found u blob) fs =
        { dbFile := some blob, backupFile := fs.backupFile }) ∧
    (∀ fs : FS, loadDbFromGithub GHGetRes.notFound fs = fs) :=
  ⟨fun _ _ _ => rfl, fun _ => rfl⟩

/-- C6 counterexample: a cache file large enough to pass the size guard is
uploaded even though the trivial read probe would fail on it — no integrity
verification happens before the upload, contrary to the claim. -/
theorem claim_C6_counterexample :
    bigCorruptFile.sqliteOk = false ∧
    ¬(bigCorruptFile.bytes.length < 1000) ∧
    syncDbToGithub ghC6 ⟨some bigCorruptFile, none⟩ = SyncResult.synced := by
  decide

/-- C6 (amended): `sync_db_to_github` skips the upload exactly when the cache
file is missing or smaller than 1000 bytes — it runs no integrity probe; a
non-2xx upload response is logged and the call returns normally, while a
raised requests exception (on the sha GET or the PUT) propagates to the
caller. -/
theorem claim_C6_amended :
    (∀ (g : GHRemote) (fs : FS), fs.dbFile = none →
      syncDbToGithub g fs = SyncResult.skipped) ∧
    (∀ (g : GHRemote) (fs : FS) (f : GFile), fs.dbFile = some f →
      f.bytes.length < 1000 → syncDbToGithub g fs = SyncResult.skipped) ∧
    (∀ (g : GHRemote) (fs : FS) (f : GFile), fs.dbFile = some f →
      ¬(f.bytes.length < 1000) → g.shaRes ≠ ShaRes.raised →
      g.putRes = PutRes.non2xx → syncDbToGithub g fs = SyncResult.putFailedLogged) ∧
    (∀ (g : GHRemote) (fs : FS) (f : GFile), fs.dbFile = some f →
      ¬(f.bytes.length < 1000) → g.shaRes ≠ ShaRes.raised →
      g.putRes = PutRes.ok2xx → syncDbToGithub g fs = SyncResult.synced) ∧
    (∀ (g : GHRemote) (fs : FS) (f : GFile), fs.dbFile = some f →
      ¬(f.bytes.length < 1000) →
      (g.shaRes = ShaRes.raised ∨ g.putRes = PutRes.raised) →
      syncDbToGithub g fs = SyncResult.raisedExn) := by
  refine ⟨?_, ?_, ?_, ?_, ?_⟩
  · intro g fs h
    simp [syncDbToGithub, h]
  · intro g fs f h hlt
    simp [syncDbToGithub, h, hlt]
  · intro g fs f h hlt hsha hput
    simp only [syncDbToGithub, h, if_neg hlt]
    cases hs : g.shaRes with
    | raised => exact absurd hs hsha
    | okSha sha => rw [hput]
    | non200 => rw [hput]
  · intro g fs f h hlt hsha hput
    simp only [syncDbToGithub, h, if_neg hlt]
    cases hs : g.shaRes with
    | raised => exact absurd hs hsha
    | okSha sha => rw [hput]
    | non200 => rw [hput]
  · intro g fs f h hlt hor
    simp only [syncDbToGithub, h, if_neg hlt]
    rcases hor with hs | hp
    · rw [hs]
    · cases hs : g.shaRes with
      | raised => rfl
      | okSha sha => rw [hp]
      | non200 => rw [hp]

/-- C6 witness: the amended behaviour at concrete inputs. -/
theorem claim_C6_witness :
    ((⟨none, none⟩ : FS).dbFile = none ∧
      syncDbToGithub ghC6 ⟨none, none⟩ = SyncResult.skipped) ∧
    (¬(bigCorruptFile.bytes.length < 1000) ∧ ghC6.shaRes ≠ ShaRes.raised ∧
      ghC6.putRes = PutRes.ok2xx ∧
      syncDbToGithub ghC6 ⟨some bigCorruptFile, none⟩ = SyncResult.synced) :=
  ⟨⟨rfl, claim_C6_amended.1 ghC6 ⟨none, none⟩ rfl⟩,
   ⟨by decide, by decide, rfl,
    (claim_C6_amended.2.2.2.1 ghC6 ⟨some bigCorruptFile, none⟩ bigCorruptFile rfl
      (by decide) (by decide) rfl)⟩⟩

/-- C7: a version-attribute refresh scoped to platform IOS deletes and
rewrites only the app_versions and app_version_localizations rows of
(app, store, IOS); the apps, app_info_localizations and app_screenshots
tables are untouched, rows outside the scope (in particular every MAC_OS row
and every other app's row) are preserved exactly — given that the remote
honours the platform filter and that remote ids only collide with rows of
that scope. -/
theorem claim_C7_scoped_refresh_frame (R : Remote) (attr appId : String) (s : Nat)
    (db : DB)
    (hattr : versionAttrs.contains attr = true)
    (hplat : ∀ v ∈ versionsOf R appId (some "IOS"), v.platform = some "IOS")
    (hkeyV : ∀ v ∈ versionsOf R appId (some "IOS"), ∀ r ∈ db.app_versions,
        r.version_id = v.id → inVersScope appId s (some "IOS") r = true)
    (hkeyL : ∀ v ∈ versionsOf R appId (some "IOS"), ∀ ld ∈ versionLocsOf R v.id,
        ∀ r ∈ db.app_version_localizations, r.localization_id = ld.id →
        inVLocScope appId s (some "IOS") r = true) :
    (syncAttributeData R attr appId s (some "IOS") db).1.apps = db.apps ∧
    (syncAttributeData R attr appId s (some "IOS") db).1.app_info_localizations =
      db.app_info_localizations ∧
    (syncAttributeData R attr appId s (some "IOS") db).1.app_screenshots =
      db.app_screenshots ∧
    (syncAttributeData R attr appId s (some "IOS") db).1.app_versions.filter
        (fun r => !(inVersScope appId s (some "IOS") r)) =
      db.app_versions.filter (fun r => !(inVersScope appId s (some "IOS") r)) ∧
    (syncAttributeData R attr appId s (some "IOS") db).1.app_version_localizations.filter
        (fun r => !(inVLocScope appId s (some "IOS") r)) =
      db.app_version_localizations.filter
        (fun r => !(inVLocScope appId s (some "IOS") r)) ∧
    (∀ r ∈ db.app_versions, r.platform = some "MAC_OS" →
      r ∈ (syncAttributeData R attr appId s (some "IOS") db).1.app_versions) ∧
    (∀ r ∈ db.app_version_localizations, r.platform = some "MAC_OS" →
      r ∈ (syncAttributeData R attr appId s (some "IOS") db).1.app_version_localizations) := by
  rcases syncAttributeData_version_frame R attr appId s "IOS" db hattr hplat hkeyV hkeyL with
    ⟨c1, c2, c3, c4, c5⟩
  refine ⟨c1, c2, c3, c4, c5, ?_, ?_⟩
  · intro r hr hmac
    have hsc : (!(inVersScope appId s (some "IOS") r)) = true := by
      simp [inVersScope, platformMatches, hmac]
    have : r ∈ db.app_versions.filter (fun r => !(inVersScope appId s (some "IOS") r)) :=
      List.mem_filter.mpr ⟨hr, hsc⟩
    rw [← c4] at this
    exact (List.mem_filter.mp this).1
  · intro r hr hmac
    have hsc : (!(inVLocScope appId s (some "IOS") r)) = true := by
      simp [inVLocScope, platformMatches, hmac]
    have : r ∈ db.app_version_localizations.filter
        (fun r => !(inVLocScope appId s (some "IOS") r)) :=
      List.mem_filter.mpr ⟨hr, hsc⟩
    rw [← c5] at this
    exact (List.mem_filter.mp this).1

/-- C7 witness: the frame property at a concrete remote and cache holding
MAC_OS rows, another app's rows and app-info rows. -/
theorem claim_C7_witness :
    (versionAttrs.contains "description" = true ∧
      (∀ v ∈ versionsOf remoteC7 "A" (some "IOS"), v.platform = some "IOS") ∧
      (∀ v ∈ versionsOf remoteC7 "A" (some "IOS"), ∀ r ∈ dbC7.app_versions,
        r.version_id = v.id → inVersScope "A" 1 (some "IOS") r = true) ∧
      (∀ v ∈ versionsOf remoteC7 "A" (some "IOS"), ∀ ld ∈ versionLocsOf remoteC7 v.id,
        ∀ r ∈ dbC7.app_version_localizations, r.localization_id = ld.id →
        inVLocScope "A" 1 (some "IOS") r = true)) ∧
    ((syncAttributeData remoteC7 "description" "A" 1 (some "IOS") dbC7).1.apps =
      dbC7.apps ∧
     (syncAttributeData remoteC7 "description" "A" 1 (some "IOS")
        dbC7).1.app_info_localizations = dbC7.app_info_localizations ∧
     (syncAttributeData remoteC7 "description" "A" 1 (some "IOS")
        dbC7).1.app_screenshots = dbC7.app_screenshots ∧
     (syncAttributeData remoteC7 "description" "A" 1 (some "IOS")
          dbC7).1.app_versions.filter
        (fun r => !(inVersScope "A" 1 (some "IOS") r)) =
      dbC7.app_versions.filter (fun r => !(inVersScope "A" 1 (some "IOS") r)) ∧
     (syncAttributeData remoteC7 "description" "A" 1 (some "IOS")
          dbC7).1.app_version_localizations.filter
        (fun r => !(inVLocScope "A" 1 (some "IOS") r)) =
      dbC7.app_version_localizations.filter
        (fun r => !(inVLocScope "A" 1 (some "IOS") r)) ∧
     (∀ r ∈ dbC7.app_versions, r.platform = some "MAC_OS" →
      r ∈ (syncAttributeData remoteC7 "description" "A" 1 (some "IOS")
        dbC7).1.app_versions) ∧
     (∀ r ∈ dbC7.app_version_localizations, r.platform = some "MAC_OS" →
      r ∈ (syncAttributeData remoteC7 "description" "A" 1 (some "IOS")
        dbC7).1.app_version_localizations)) :=
  ⟨⟨by decide, by decide, by decide, by decide⟩,
   claim_C7_scoped_refresh_frame remoteC7 "description" "A" 1 dbC7
     (by decide) (by decide) (by decide) (by decide)⟩

/-- C8: a patch sends exactly the non-None attributes, keys translated
through ATTRIBUTE_MAPPING (unknown keys pass through unchanged), inside a
payload carrying the resource type and localization id; None-valued
attributes are omitted from the payload. -/
theorem claim_C8_patch_payload (R : Remote) (locId : String)
    (attrs : List (String × Option String)) (hj : R.jwtOk = true) :
    (patchAppInfoLocalization R locId attrs).2 =
      some ⟨"appInfoLocalizations", locId, mappedAttributes attrs⟩ ∧
    (patchAppStoreVersionLocalization R locId attrs).2 =
      some ⟨"appStoreVersionLocalizations", locId, mappedAttributes attrs⟩ ∧
    (∀ (k v : String), (k, v) ∈ mappedAttributes attrs ↔
      ∃ k0, (k0, some v) ∈ attrs ∧ k = mapAttrKey k0) ∧
    (∀ k : String, (∀ q ∈ ATTRIBUTE_MAPPING, q.1 ≠ k) → mapAttrKey k = k) := by
  refine ⟨?_, ?_, ?_, ?_⟩
  · simp only [patchAppInfoLocalization, hj, if_true]
    cases R.patchInfoLoc locId attrs <;> rfl
  · simp only [patchAppStoreVersionLocalization, hj, if_true]
    cases R.patchVersionLoc locId attrs <;> rfl
  · intro k v
    simp only [mappedAttributes, List.mem_filterMap]
    constructor
    · rintro ⟨⟨k0, w⟩, hp, hf⟩
      cases w with
      | none => simp at hf
      | some u =>
        simp only [Option.map_some', Option.some_inj, Prod.mk.injEq] at hf
        rcases hf with ⟨hk, hv⟩
        subst hv
        exact ⟨k0, hp, hk.symm⟩
    · rintro ⟨k0, hmem, hk⟩
      exact ⟨(k0, some v), hmem, by simp [hk]⟩
  · intro k hk
    have hnone : ATTRIBUTE_MAPPING.find? (fun p => p.1 == k) = none := by
      rw [List.find?_eq_none]
      intro q hq
      simp [hk q hq]
    simp [mapAttrKey, hnone]

/-- C8 witness: payload construction at a concrete attribute dictionary with
a translated key, a pass-through key and an omitted None value. -/
theorem claim_C8_witness :
    quietRemote.jwtOk = true ∧
    ((patchAppInfoLocalization quietRemote "L1"
        [("whats_new", some "x"), ("unknown_key", some "y"), ("keywords", none)]).2 =
      some ⟨"appInfoLocalizations", "L1",
        mappedAttributes
          [("whats_new", some "x"), ("unknown_key", some "y"), ("keywords", none)]⟩ ∧
     mappedAttributes
        [("whats_new", some "x"), ("unknown_key", some "y"), ("keywords", none)] =
      [("whatsNew", "x"), ("unknown_key", "y")]) :=
  ⟨rfl,
   (claim_C8_patch_payload quietRemote "L1"
      [("whats_new", some "x"), ("unknown_key", some "y"), ("keywords", none)] rfl).1,
   by decide⟩

/-- C9: the full-store refresh returns True exactly when at least one listed
app was processed without an exception, and a failing app does not abort the
rest — every listed app still ends with its apps-table row present for the
store. -/
theorem claim_C9_refresh_success_reporting (R : Remote) (s : Nat) (db : DB)
    (L : List AppListing) (hL : fetchAllApps R = FR.ok L) :
    ((fetchAndStoreApps R s db).2 = some true ↔
      ∃ a ∈ L, processAppOkDef R s a.id = true) ∧
    (∀ a ∈ L, ∃ r ∈ (fetchAndStoreApps R s db).1.apps,
      r.app_id = a.id ∧ r.store_id = s) :=
  fetchAndStoreApps_report R s db L hL

/-- C9 witness: app A's processing raises while app B succeeds; the refresh
reports success and both apps' rows are present. -/
theorem claim_C9_witness :
    (fetchAllApps remoteC9 = FR.ok [⟨"A", some "AppA"⟩, ⟨"B", some "AppB"⟩] ∧
      processAppOkDef remoteC9 1 "A" = false ∧ processAppOkDef remoteC9 1 "B" = true) ∧
    (((fetchAndStoreApps remoteC9 1 emptyDB).2 = some true ↔
      ∃ a ∈ ([⟨"A", some "AppA"⟩, ⟨"B", some "AppB"⟩] : List AppListing),
        processAppOkDef remoteC9 1 a.id = true) ∧
     (∀ a ∈ ([⟨"A", some "AppA"⟩, ⟨"B", some "AppB"⟩] : List AppListing),
      ∃ r ∈ (fetchAndStoreApps remoteC9 1 emptyDB).1.apps,
        r.app_id = a.id ∧ r.store_id = 1)) :=
  ⟨⟨by decide, by decide, by decide⟩,
   claim_C9_refresh_success_reporting remoteC9 1 emptyDB
     [⟨"A", some "AppA"⟩, ⟨"B", some "AppB"⟩] (by decide)⟩

/-- C10: a screenshots refresh through `sync_attribute_data` returns True
whenever it returns at all, regardless of the screenshot fetch outcome (the
result of `fetch_screenshots` is discarded), and an unrecognized attribute
returns True having mutated nothing. -/
theorem claim_C10_screenshots_and_unknown (R : Remote) (appId : String) (s : Nat)
    (pf : Option String) (db : DB) :
    (∀ (db2 : DB) (b : Bool),
      syncAttributeData R "screenshots" appId s pf db = (db2, some b) → b = true) ∧
    (∀ attr : String, infoAttrs.contains attr = false →
      versionAttrs.contains attr = false → (attr == "screenshots") = false →
      syncAttributeData R attr appId s pf db = (db, some true)) := by
  constructor
  · intro db2 b h
    have h1 : infoAttrs.contains "screenshots" = false := by decide
    have h2 : versionAttrs.contains "screenshots" = false := by decide
    simp only [syncAttributeData, h1, h2, Bool.false_eq_true, if_false,
      beq_self_eq_true, if_true] at h
    cases hfs : (fetchScreenshotsDb R appId s pf db).2 with
    | false =>
      rw [hfs] at h
      simp at h
    | true =>
      rw [hfs] at h
      simp only [if_true, Prod.mk.injEq, Option.some_inj] at h
      exact h.2.symm
  · intro attr k1 k2 k3
    simp only [syncAttributeData, k1, k2, k3, Bool.false_eq_true, if_false]

/-- C10 witness: a failed screenshot fetch still yields True, and an unknown
attribute is a no-op returning True. -/
theorem claim_C10_witness :
    (syncAttributeData quietRemote "screenshots" "A" 1 none emptyDB =
      (emptyDB, some true)) ∧
    (true = true) ∧
    (infoAttrs.contains "bogus" = false ∧ versionAttrs.contains "bogus" = false ∧
      ("bogus" == "screenshots") = false ∧
      syncAttributeData quietRemote "bogus" "A" 1 none emptyDB = (emptyDB, some true)) :=
  ⟨by decide,
   (claim_C10_screenshots_and_unknown quietRemote "A" 1 none emptyDB).1 emptyDB true
     (by decide),
   by decide, by decide, by decide,
   (claim_C10_screenshots_and_unknown quietRemote "A" 1 none emptyDB).2 "bogus"
     (by decide) (by decide) (by decide)⟩

end DevToolDZM
